import Mathlib

/-!
Verification of the ARKA-V2 personal desktop automation agent against its
natural-language specification.

The development shallowly embeds the Python modules that the checked claims
touch:

* `src/memory/mistakes.py`   — the `MistakeGuard` shell-command safety validator;
* `src/core/verification.py` — the post-hoc result verifier (`adjust_final_answer`);
* `src/core/intent_router.py`— the deterministic intent router (`try_handle`);
* `src/memory/store.py`      — the fact store (`upsert_fact`, expiry/purge);
* `src/core/goal_manager.py` — the goal state machine (`advance_goal`);
* `src/memory/distiller.py`  — the fact distiller (`extract_facts_from_text`);
* `src/core/session_context.py` — the session tracker (`update_browser`).

Python strings are modelled as Lean `String`s (internally `List Char`);
Python `None`/truthiness is modelled with `Option`/explicit emptiness tests;
the handful of regular expressions used by the code are embedded as
hand-rolled, executable scanners with the same matching semantics
(leftmost search, greedy capture) on the inputs the program handles.
SQLite rows become records in a list; `datetime.now()` becomes an explicit
integer timestamp argument.
-/

namespace Arka

/-! ## String utilities (Python `str` semantics on `List Char`) -/

/-- Python `\s` (ASCII whitespace as used by `str.strip` and `re`). -/
def isPyWs (c : Char) : Bool :=
  c == ' ' || c == '\t' || c == '\n' || c == '\r' || c == '\x0b' || c == '\x0c'

/-- Python word character class `\w` = `[A-Za-z0-9_]` (ASCII). -/
def isWordChar (c : Char) : Bool :=
  c.isAlpha || c.isDigit || c == '_'

/-- `str.lower()` (ASCII). -/
def lowerL (cs : List Char) : List Char := cs.map Char.toLower

/-- `str.strip()`: drop leading and trailing whitespace. -/
def trimL (cs : List Char) : List Char :=
  ((cs.dropWhile isPyWs).reverse.dropWhile isPyWs).reverse

/-- `str.rstrip(chars)`: drop trailing characters drawn from `chars`. -/
def rstripL (chars : List Char) (cs : List Char) : List Char :=
  (cs.reverse.dropWhile (fun c => chars.contains c)).reverse

/-- Case-sensitive prefix test on character lists (`pat` a prefix of `cs`). -/
def prefixAt (pat cs : List Char) : Bool :=
  match pat, cs with
  | [], _ => true
  | _ :: _, [] => false
  | p :: ps, c :: cs' => p == c && prefixAt ps cs'

/-- Python `pat in s` (substring containment). -/
def containsL (cs pat : List Char) : Bool :=
  match cs with
  | [] => prefixAt pat []
  | _ :: t => prefixAt pat cs || containsL t pat

/-- Case-insensitive prefix test (used for `re.IGNORECASE` literals). -/
def prefixAtCI (pat cs : List Char) : Bool :=
  prefixAt (lowerL pat) (lowerL cs)

/-- Substring containment on `String` (Python `pat in s`). -/
def strContains (s pat : String) : Bool := containsL s.data pat.data

/-- `str.startswith` on `String`. -/
def strStartsWith (s pat : String) : Bool := prefixAt pat.data s.data

/-- `str.lower()` on `String`. -/
def strLower (s : String) : String := ⟨lowerL s.data⟩

/-- `str.strip()` on `String`. -/
def strTrim (s : String) : String := ⟨trimL s.data⟩

/-- Python truthiness of an optional string (`None` and `""` are falsy). -/
def optTruthy (o : Option String) : Bool :=
  match o with
  | some s => !(s == "")
  | none => false

/-- Python `a or b` for an optional string with a string default. -/
def orElseStr (o : Option String) (d : String) : String :=
  match o with
  | some s => if s == "" then d else s
  | none => d

/-! ## `src/memory/mistakes.py` — `MistakeGuard` -/

/-- `MistakeGuard.prohibited_patterns`. -/
def prohibitedPatterns : List String :=
  ["rm -rf /",
   "rm -rf ~",
   ":()\x7b :|:& \x7d;:",
   "sudo"]

/-- `MistakeGuard.validate_command`: returns the block message for the first
prohibited pattern contained in the command, else `none`. -/
def validateCommand (command : String) : Option String :=
  (prohibitedPatterns.find? (fun p => strContains command p)).map
    (fun p => "⛔ SAFETY BLOCK: Command contains prohibited pattern \x27" ++ p ++ "\x27")

/-! ## `src/core/session_context.py` — `SessionContext` data -/

/-- The mutable fields of the process-wide `SessionContext` singleton. -/
structure SC where
  lastApp : Option String := none
  lastUrl : Option String := none
  lastSite : Option String := none
  lastTitle : Option String := none
  lastTask : Option String := none
  lastTool : Option String := none
  mode : String := "default"
  interruptRequested : Bool := false
  totalInputTokens : Nat := 0
  totalOutputTokens : Nat := 0
  contextWindow : Nat := 128000
deriving DecidableEq

/-- The state `SessionContext.__init__` creates. -/
def SC.init : SC := {}

/-! ## `src/core/verification.py` — post-hoc result verifier -/

/-- One entry of the agent's action trace.  `smolagents` memories mix
`ActionStep`s (which carry a `code_action` attribute, possibly `None`) with
other step kinds; `_iter_action_steps` keeps only the former. -/
inductive Step where
  | action (codeAction : Option String) (error : Option String)
      (observations : Option String)
  | other
deriving DecidableEq

def SUCCESS_MARKERS : List String :=
  ["success", "successfully", "done", "completed", "sent", "opened",
   "playing", "shared"]

def BROWSER_MARKERS : List String :=
  ["browser", "tab", "website", "youtube", "instagram", "chrome", "comet"]

def VERIFY_CALLS : List String :=
  ["chrome_wait_for_selector", "chrome_get_text", "chrome_get_dom",
   "chrome_get_elements", "chrome_verify_text", "find_text_on_screen",
   "find_and_click_text_on_screen", "get_screen_coordinates"]

def REQUIRES_STRICT_VERIFY : List String :=
  ["comment", "message", "dm", "share", "send"]

def UI_MARKERS : List String :=
  ["top section", "bottom section", "left side", "right side", "song",
   "track", "apple music", "music app"]

/-- `_has_error`: an action step with a truthy `error`, or failure markers in
its observations. -/
def hasError (steps : List Step) : Bool :=
  steps.any fun s =>
    match s with
    | .other => false
    | .action _ e o =>
      optTruthy e ||
        (let obs := o.getD ""
         strContains obs "❌" || strContains obs "Browser Error" ||
           strContains obs "Timeout" || strContains obs "Error")

/-- `_has_verification`: some action step's code mentions a verification call. -/
def hasVerification (steps : List Step) : Bool :=
  steps.any fun s =>
    match s with
    | .other => false
    | .action c _ _ => VERIFY_CALLS.any (fun name => strContains (c.getD "") name)

/-- `_has_strict_verification`. -/
def hasStrictVerification (steps : List Step) : Bool :=
  steps.any fun s =>
    match s with
    | .other => false
    | .action c _ _ =>
      let code := c.getD ""
      strContains code "chrome_verify_text" ||
        (strContains code "find_text_on_screen" ||
         strContains code "find_and_click_text_on_screen" ||
         strContains code "get_screen_coordinates")

/-- `_claims_success`. -/
def claimsSuccess (finalAnswer : String) : Bool :=
  SUCCESS_MARKERS.any (fun m => strContains (strLower finalAnswer) m)

/-- `_is_browser_task` (reads the session singleton). -/
def isBrowserTask (task : String) (sc : SC) : Bool :=
  BROWSER_MARKERS.any (fun m => strContains (strLower task) m) ||
    (optTruthy sc.lastSite || optTruthy sc.lastUrl)

/-- `_requires_strict` (reads the session singleton). -/
def requiresStrict (task : String) (sc : SC) : Bool :=
  REQUIRES_STRICT_VERIFY.any (fun k => strContains (strLower task) k) ||
    (UI_MARKERS.any (fun k => strContains (strLower task) k) && optTruthy sc.lastApp)

/-- The generic error-override message of `adjust_final_answer`. -/
def errorOccurredMsg : String :=
  "I couldn\x27t verify that the task fully succeeded. " ++
  "I hit an error during execution. " ++
  "If you\x27d like, I can try again or continue from the current state."

/-- The strict-verification downgrade message. -/
def strictDowngradeMsg : String :=
  "I ran the steps, but I didn\x27t verify the result. " ++
  "Please confirm it on the page, or tell me to verify and finish."

/-- The browser-verification downgrade message, naming the last-known place. -/
def browserDowngradeMsg (target : String) : String :=
  "I ran the steps, but I couldn\x27t verify completion with a DOM check. " ++
  "Please confirm the result on " ++ target ++ ", or tell me to continue."

/-- `adjust_final_answer` (the Python `isinstance(str)` guard is vacuous here:
the answer is already a string). -/
def adjustFinalAnswer (finalAnswer : String) (steps : List Step) (task : String)
    (sc : SC) : String :=
  if !(claimsSuccess finalAnswer) then finalAnswer
  else if hasError steps then errorOccurredMsg
  else if requiresStrict task sc && !(hasStrictVerification steps) then
    strictDowngradeMsg
  else if isBrowserTask task sc && !(hasVerification steps) then
    browserDowngradeMsg (orElseStr sc.lastSite (orElseStr sc.lastUrl "the current browser tab"))
  else finalAnswer

/-! ## `src/core/session_context.py` — operations and reachability -/

/-- `SessionContext.update_app`. -/
def SC.updateApp (s : SC) (appName : String) : SC := { s with lastApp := some appName }

/-- `SessionContext.update_task`. -/
def SC.updateTask (s : SC) (task : String) : SC := { s with lastTask := some task }

/-- `SessionContext.update_mode`. -/
def SC.updateMode (s : SC) (mode : String) : SC := { s with mode := mode }

/-- `SessionContext.request_interrupt`. -/
def SC.requestInterrupt (s : SC) : SC := { s with interruptRequested := true }

/-- `SessionContext.consume_interrupt`. -/
def SC.consumeInterrupt (s : SC) : SC × Bool :=
  if s.interruptRequested then ({ s with interruptRequested := false }, true)
  else (s, false)

/-- `SessionContext.update_tokens` (Python treats `None` and `0` as falsy). -/
def SC.updateTokens (s : SC) (inputTokens outputTokens : Option Nat) : SC :=
  let s1 := match inputTokens with
    | some n => if n = 0 then s else { s with totalInputTokens := s.totalInputTokens + n }
    | none => s
  match outputTokens with
  | some n => if n = 0 then s1 else { s1 with totalOutputTokens := s1.totalOutputTokens + n }
  | none => s1

/-- Characters allowed in a URL scheme after the leading letter
(`urllib.parse.scheme_chars`). -/
def isSchemeChar (c : Char) : Bool :=
  c.isAlpha || c.isDigit || c == '+' || c == '-' || c == '.'

/-- Strip a leading `scheme:` from a URL the way `urllib.parse.urlsplit` does:
the part before the first `:` must be non-empty, start with a letter and
consist of scheme characters. -/
def schemeSplit (cs : List Char) : List Char :=
  let pre := cs.takeWhile (fun c => !(c == ':'))
  if pre.length < cs.length &&
      (match pre with
       | c :: rest => c.isAlpha && rest.all isSchemeChar
       | [] => false) then
    cs.drop (pre.length + 1)
  else cs

/-- `urlparse(url).netloc`: the authority component, present only when the
remainder after the scheme starts with `//`; it extends to the next
`/`, `?` or `#`. -/
def netlocOf (url : String) : String :=
  let rest := schemeSplit url.data
  if prefixAt ['/', '/'] rest then
    ⟨(rest.drop 2).takeWhile (fun c => !(c == '/' || c == '?' || c == '#'))⟩
  else ""

/-- The `if url:` half of `SessionContext.update_browser`: record the URL and
derive `last_site` from its authority component when one is present. -/
def SC.browserUrlStep (s : SC) (url : Option String) : SC :=
  match url with
  | some u =>
    if u == "" then s
    else
      let s' := { s with lastUrl := some u }
      if netlocOf u == "" then s' else { s' with lastSite := some (netlocOf u) }
  | none => s

/-- `SessionContext.update_browser`: the URL step followed by the
`if title:` step. -/
def SC.updateBrowser (s : SC) (url title : Option String) : SC :=
  let s1 := s.browserUrlStep url
  match title with
  | some t => if t == "" then s1 else { s1 with lastTitle := some t }
  | none => s1

/-- The states of the `session_context` singleton reachable from process
start through the class's mutator methods. -/
inductive Reachable : SC → Prop where
  | init : Reachable SC.init
  | updateApp {s : SC} (a : String) : Reachable s → Reachable (s.updateApp a)
  | updateTask {s : SC} (t : String) : Reachable s → Reachable (s.updateTask t)
  | updateMode {s : SC} (m : String) : Reachable s → Reachable (s.updateMode m)
  | requestInterrupt {s : SC} : Reachable s → Reachable s.requestInterrupt
  | consumeInterrupt {s : SC} : Reachable s → Reachable s.consumeInterrupt.1
  | updateBrowser {s : SC} (url title : Option String) :
      Reachable s → Reachable (s.updateBrowser url title)
  | updateTokens {s : SC} (i o : Option Nat) :
      Reachable s → Reachable (s.updateTokens i o)

/-! ## `src/memory/config.py` — distiller configuration -/

/-- `SAFE_PREDICATES` (a Python set; order is irrelevant). -/
def SAFE_PREDICATES : List String :=
  ["preference", "preferred_name", "name", "title", "pronouns", "timezone",
   "language", "theme"]

/-- `SENSITIVE_KEYWORDS` (a Python set; order is irrelevant). -/
def SENSITIVE_KEYWORDS : List String :=
  ["password", "passcode", "otp", "api key", "secret", "token",
   "private key", "seed phrase", "mnemonic", "credit card", "ssn"]

/-! ## `src/memory/distiller.py` — fact extraction

The distiller's regexes all have the shape `\bLITERAL (CAPTURE)` searched with
`re.IGNORECASE`; they are embedded as leftmost word-boundary searches with a
greedy capture. -/

/-- Leftmost search of a pattern `p` that must start at a word boundary
(`\b` before a word character): try the current position when it follows a
non-word character (or the start), else advance. -/
def searchBAux {α : Type} (p : List Char → Option α) :
    List Char → Bool → Option α
  | [], atB => if atB then p [] else none
  | c :: rest, atB =>
    match (if atB then p (c :: rest) else none) with
    | some r => some r
    | none => searchBAux p rest (!(isWordChar c))

/-- Match a case-insensitive literal keyword followed by a greedy character
-class capture of between `minN` and `maxN` characters (`LITERAL ([cls]{m,n})`). -/
def capClassAt (kw : List Char) (cls : Char → Bool) (minN maxN : Nat)
    (cs : List Char) : Option (List Char) :=
  if prefixAtCI kw cs then
    let cap := ((cs.drop kw.length).takeWhile cls).take maxN
    if minN ≤ cap.length then some cap else none
  else none

/-- Match a case-insensitive literal keyword followed by `(.+)$`: a non-empty
capture running to the end of the text (`.` does not cross a newline and `$`
also matches just before one trailing newline). -/
def capToEndAt (kw : List Char) (cs : List Char) : Option (List Char) :=
  if prefixAtCI kw cs then
    let rest := cs.drop kw.length
    let cap := rest.takeWhile (fun c => !(c == '\n'))
    let remaining := rest.drop cap.length
    if cap.isEmpty then none
    else if remaining.isEmpty || remaining == ['\n'] then some cap
    else none
  else none

/-- `re.search(r"\bKW ([cls]{minN,maxN})", text, re.IGNORECASE)` returning
group 1. -/
def reSearchKwClass (kw : String) (cls : Char → Bool) (minN maxN : Nat)
    (text : String) : Option String :=
  (searchBAux (capClassAt kw.data cls minN maxN) text.data true).map (⟨·⟩)

/-- `re.search(r"\bKW (.+)$", text, re.IGNORECASE)` returning group 1. -/
def reSearchToEnd (kw : String) (text : String) : Option String :=
  (searchBAux (capToEndAt kw.data) text.data true).map (⟨·⟩)

/-- The capture class `[A-Za-z0-9 _\-]` of the name patterns. -/
def isNameChar (c : Char) : Bool :=
  c.isAlpha || c.isDigit || c == ' ' || c == '_' || c == '-'

/-- The capture class `[A-Za-z/ ]` of the pronouns pattern. -/
def isPronounChar (c : Char) : Bool :=
  c.isAlpha || c == '/' || c == ' '

/-- `str.strip(chars)`: drop the given characters from both ends. -/
def stripChars (chars : List Char) (cs : List Char) : List Char :=
  ((cs.dropWhile (fun c => chars.contains c)).reverse.dropWhile
      (fun c => chars.contains c)).reverse

/-- Worker for `collapseWs`: the flag records whether the previous character
was whitespace (so the current run has already emitted its space). -/
def collapseWsAux : List Char → Bool → List Char
  | [], _ => []
  | c :: rest, inWs =>
    if isPyWs c then
      if inWs then collapseWsAux rest true
      else ' ' :: collapseWsAux rest true
    else c :: collapseWsAux rest false

/-- `re.sub(r"\s+", " ", ·)`: collapse whitespace runs to single spaces. -/
def collapseWs (cs : List Char) : List Char := collapseWsAux cs false

/-- `_clean_value`: strip whitespace, strip quotes, strip again, collapse
inner whitespace. -/
def cleanValue (value : String) : String :=
  ⟨collapseWs (trimL (stripChars ['"', '\x27'] (trimL value.data)))⟩

/-- A distilled fact dictionary `{subject, predicate, object}`. -/
structure DFact where
  subject : String
  predicate : String
  obj : String
deriving DecidableEq

/-- The distiller's `(pattern, predicate)` table. -/
def distillRules : List ((String → Option String) × String) :=
  [(reSearchKwClass "call me " isNameChar 2 40, "preferred_name"),
   (reSearchKwClass "i go by " isNameChar 2 40, "preferred_name"),
   (reSearchKwClass "my name is " isNameChar 2 40, "name"),
   (reSearchKwClass "i am " isNameChar 2 40, "name"),
   (reSearchKwClass "my pronouns are " isPronounChar 2 40, "pronouns"),
   (reSearchToEnd "i prefer ", "preference"),
   (reSearchToEnd "i like ", "preference"),
   (reSearchToEnd "i love ", "preference"),
   (reSearchToEnd "i use ", "preference")]

/-- `extract_facts_from_text`: sensitive texts yield no facts at all;
otherwise each pattern contributes at most one cleaned, truncated fact, and
explicit theme keywords append theme facts. -/
def extractFactsFromText (text : String) : List DFact :=
  if text == "" then []
  else
    let lower := strLower text
    if SENSITIVE_KEYWORDS.any (fun keyword => strContains lower keyword) then []
    else
      let fromPatterns := distillRules.filterMap (fun rule =>
        match rule.1 text with
        | none => none
        | some raw =>
          let value := cleanValue raw
          if value == "" then none
          else if !(SAFE_PREDICATES.contains rule.2) then none
          else some ⟨"user", rule.2, ⟨value.data.take 120⟩⟩)
      fromPatterns ++
        (if strContains lower "dark mode" || strContains lower "dark theme" then
          [⟨"user", "theme", "dark"⟩] else []) ++
        (if strContains lower "light mode" || strContains lower "light theme" then
          [⟨"user", "theme", "light"⟩] else [])

/-! ## `src/core/goal_manager.py` — goal state machine -/

/-- A persisted goal (`Goal.__init__`; the generated id and timestamp are
taken as parameters). -/
structure Goal where
  id : String
  description : String
  steps : List String
  completedSteps : List Nat
  status : String
  createdAt : Int
deriving DecidableEq

/-- A freshly constructed goal: no completed steps, status `active`. -/
def Goal.create (id description : String) (steps : List String)
    (createdAt : Int) : Goal :=
  { id := id, description := description, steps := steps,
    completedSteps := [], status := "active", createdAt := createdAt }

/-- `Goal.next_step_index`: the lowest step index not yet completed. -/
def Goal.nextStepIndex (g : Goal) : Option Nat :=
  (List.range g.steps.length).find? (fun i => !(g.completedSteps.contains i))

/-- `Goal.next_step`: the step text at `next_step_index`. -/
def Goal.nextStep (g : Goal) : Option String :=
  match g.nextStepIndex with
  | some i => g.steps[i]?
  | none => none

/-- `Goal.progress`: `"done/total"`. -/
def Goal.progress (g : Goal) : String :=
  toString g.completedSteps.length ++ "/" ++ toString g.steps.length

/-- `GoalManager.advance_goal`, restricted to the already-looked-up goal:
mark the next step completed, flipping the status to `completed` when no
step remains; on an already-finished goal report full completion. -/
def Goal.advance (g : Goal) : Goal × String :=
  match g.nextStepIndex with
  | none =>
    ({ g with status := "completed" },
     "🎉 Goal \x27" ++ g.description ++ "\x27 is fully complete!")
  | some idx =>
    let g1 := { g with completedSteps := g.completedSteps ++ [idx] }
    let g2 := if g1.nextStep.isNone then { g1 with status := "completed" } else g1
    (g2, "✅ Step " ++ toString (idx + 1) ++ " completed (" ++ g2.progress ++
      "): " ++ (g2.steps[idx]?).getD "")

/-- `GoalManager.advance_goal`: look the goal up by id and advance it in
place (ids are unique, so replacing the first match is the in-place update). -/
def advanceGoalById (goals : List Goal) (goalId : String) :
    List Goal × String :=
  match goals.find? (fun g => g.id == goalId) with
  | none => (goals, "Goal " ++ goalId ++ " not found.")
  | some g =>
    let r := g.advance
    (goals.map (fun h => if h.id == goalId then r.1 else h), r.2)

/-- `Goal.advance` iterated `n` times. -/
def advanceIter (g : Goal) : Nat → Goal
  | 0 => g
  | n + 1 => (advanceIter g n).advance.1

/-! ## `src/memory/store.py` — fact store -/

/-- One entry of the bounded `history` list kept inside a fact's metadata. -/
structure HistEntry where
  obj : String
  confidence : ℚ
  updatedAt : Int
deriving DecidableEq

/-- A fact's JSON `metadata` column: caller-supplied keys plus the
`history` list that `upsert_fact` maintains. -/
structure FactMeta where
  extra : List (String × String) := []
  history : List HistEntry := []
deriving DecidableEq

/-- A row of the `facts` table. -/
structure Fact where
  id : Nat
  subject : String
  predicate : String
  obj : String
  confidence : ℚ
  sourceEventId : Option Nat
  createdAt : Int
  updatedAt : Option Int
  expiresAt : Option Int
  locked : Bool
  isDeleted : Bool
  deletedAt : Option Int
  metadata : FactMeta
deriving DecidableEq

/-- The `facts` table plus the AUTOINCREMENT counter. -/
structure MemoryStore where
  facts : List Fact := []
  nextId : Nat := 1
deriving DecidableEq

/-- `WHERE subject = ? AND predicate = ? AND is_deleted = 0`. -/
def factMatches (subject predicate : String) (f : Fact) : Bool :=
  f.subject == subject && f.predicate == predicate && !f.isDeleted

/-- The active rows for a `(subject, predicate)` pair. -/
def activeFacts (st : MemoryStore) (subject predicate : String) : List Fact :=
  st.facts.filter (factMatches subject predicate)

/-- `x < y` on optional timestamps with `NULL` smallest (SQLite sorts `NULL`
last under `DESC`). -/
def optIntLt (x y : Option Int) : Bool :=
  match x, y with
  | none, none => false
  | none, some _ => true
  | some _, none => false
  | some a, some b => decide (a < b)

/-- `a` sorts strictly before `b` under
`ORDER BY updated_at DESC, created_at DESC`. -/
def sortsBefore (a b : Fact) : Bool :=
  optIntLt b.updatedAt a.updatedAt ||
    (b.updatedAt == a.updatedAt && decide (b.createdAt < a.createdAt))

/-- Accumulator for `... LIMIT 1`: keep the row that sorts first. -/
def pickBest (best : Option Fact) (f : Fact) : Option Fact :=
  match best with
  | none => some f
  | some b => if sortsBefore f b then some f else some b

/-- The `SELECT ... WHERE subject = ? AND predicate = ? AND is_deleted = 0
ORDER BY updated_at DESC, created_at DESC LIMIT 1` of `upsert_fact`. -/
def selectActive (st : MemoryStore) (subject predicate : String) :
    Option Fact :=
  (activeFacts st subject predicate).foldl pickBest none

/-- `MemoryStore.upsert_fact`.  `now` stands for `datetime.now()`; TTL days
are scaled to seconds.  Returns the new store and the row id (or `none` when
a stripped field is empty). -/
def upsertFact (st : MemoryStore) (now : Int) (subject predicate obj : String)
    (confidence : ℚ) (sourceEventId : Option Nat) (ttlDays : Option Int)
    (metadata : Option FactMeta) : MemoryStore × Option Nat :=
  let s := strTrim subject
  let p := strTrim predicate
  let o := strTrim obj
  if s == "" || p == "" || o == "" then (st, none)
  else
    let expiresAt : Option Int := ttlDays.map (fun d => now + d * 86400)
    match selectActive st s p with
    | some row =>
      let history :=
        if row.obj == o then row.metadata.history
        else row.metadata.history ++ [⟨row.obj, row.confidence, now⟩]
      let paramMeta := metadata.getD ⟨[], []⟩
      let merged :=
        if history.isEmpty then paramMeta
        else { paramMeta with history := history }
      ({ st with facts := st.facts.map (fun f =>
          if f.id == row.id then
            { f with obj := o, confidence := confidence,
                     sourceEventId := sourceEventId, updatedAt := some now,
                     expiresAt := expiresAt, metadata := merged }
          else f) },
       some row.id)
    | none =>
      ({ st with
          facts := st.facts ++
            [{ id := st.nextId, subject := s, predicate := p, obj := o,
               confidence := confidence, sourceEventId := sourceEventId,
               createdAt := now, updatedAt := none, expiresAt := expiresAt,
               locked := false, isDeleted := false, deletedAt := none,
               metadata := metadata.getD ⟨[], []⟩ }],
          nextId := st.nextId + 1 },
       some st.nextId)

/-- The per-row effect of `cleanup_expired_facts`' UPDATE: soft-delete
unlocked, unexpired-flagged rows whose expiry has passed. -/
def expireMark (now : Int) (f : Fact) : Fact :=
  if !f.isDeleted && !f.locked &&
      (match f.expiresAt with
       | some e => decide (e ≤ now)
       | none => false) then
    { f with isDeleted := true, deletedAt := some now }
  else f

/-- `MemoryStore.cleanup_expired_facts`: mark expired facts deleted,
returning the store and the affected-row count. -/
def cleanupExpiredFacts (st : MemoryStore) (now : Int) : MemoryStore × Nat :=
  ({ st with facts := st.facts.map (expireMark now) },
   (st.facts.filter (fun f => !(expireMark now f == f))).length)

/-- The per-row effect of `purge_facts_older_than`'s UPDATE: soft-delete
unlocked rows whose `COALESCE(updated_at, created_at)` is at or before the
cutoff. -/
def purgeMark (cutoff now : Int) (f : Fact) : Fact :=
  if !f.isDeleted && !f.locked &&
      decide ((f.updatedAt.getD f.createdAt) ≤ cutoff) then
    { f with isDeleted := true, deletedAt := some now }
  else f

/-- `MemoryStore.purge_facts_older_than` (`days <= 0` is a no-op). -/
def purgeFactsOlderThan (st : MemoryStore) (days : Int) (now : Int) :
    MemoryStore × Nat :=
  if days ≤ 0 then (st, 0)
  else
    let cutoff := now - days * 86400
    ({ st with facts := st.facts.map (purgeMark cutoff now) },
     (st.facts.filter (fun f => !(purgeMark cutoff now f == f))).length)

/-- `MemoryStore.mark_fact_locked`. -/
def markFactLocked (st : MemoryStore) (factId : Nat) (locked : Bool) :
    MemoryStore :=
  { st with facts := st.facts.map (fun f =>
      if f.id == factId then { f with locked := locked } else f) }

/-! ## `src/core/intent_router.py` — regex scanners

The router's regular expressions are embedded as executable scanners with
Python `re` semantics: `re.search` is a leftmost scan over start positions,
quantifiers are greedy, `re.IGNORECASE` literals compare lowercased, and
`\b` tests a word/non-word transition. -/

/-- Consume a case-insensitive literal. -/
def litCI (pat cs : List Char) : Option (List Char) :=
  if prefixAtCI pat cs then some (cs.drop pat.length) else none

/-- Consume a case-sensitive literal. -/
def litCS (pat cs : List Char) : Option (List Char) :=
  if prefixAt pat cs then some (cs.drop pat.length) else none

/-- Consume `\s+` (greedy). -/
def ws1 (cs : List Char) : Option (List Char) :=
  match cs with
  | c :: rest => if isPyWs c then some (rest.dropWhile isPyWs) else none
  | [] => none

/-- Consume `\s*` (greedy). -/
def ws0 (cs : List Char) : List Char := cs.dropWhile isPyWs

/-- The numeric value of a digit run. -/
def digitsToNat (ds : List Char) : Nat :=
  ds.foldl (fun n c => n * 10 + (c.toNat - 48)) 0

/-- Consume `(\d+)` (greedy, at least one digit). -/
def digits1 (cs : List Char) : Option (Nat × List Char) :=
  let ds := cs.takeWhile Char.isDigit
  if ds.isEmpty then none else some (digitsToNat ds, cs.drop ds.length)

/-- Consume `(\d{1,k})` (greedy, up to `k` digits). -/
def digitsAtMost (k : Nat) (cs : List Char) : Option (Nat × List Char) :=
  let ds := (cs.takeWhile Char.isDigit).take k
  if ds.isEmpty then none else some (digitsToNat ds, cs.drop ds.length)

/-- `re.search`: try the pattern at each start position, leftmost first. -/
def searchPos {α : Type} (p : List Char → Option α) : List Char → Option α
  | [] => p []
  | c :: rest =>
    match p (c :: rest) with
    | some r => some r
    | none => searchPos p rest

/-- `re.search` for a pattern anchored at a `\b`: the flag carries whether
the previous character was a word character, and the pattern is tried
exactly where word-ness flips. -/
def searchBndry {α : Type} (p : List Char → Option α) :
    List Char → Bool → Option α
  | [], _ => none
  | c :: rest, prevW =>
    match (if (isWordChar c) != prevW then p (c :: rest) else none) with
    | some r => some r
    | none => searchBndry p rest (isWordChar c)

/-- `$` with no `re.MULTILINE`: end of text, or just before one final
newline. -/
def atLineEndAnchor (cs : List Char) : Bool :=
  cs.isEmpty || cs == ['\n']

/-- Cut a string just before the leftmost position whose suffix matches a
`$`-anchored pattern (`re.sub(pat, "", s)` for a tail pattern). -/
def cutAtSuffix (p : List Char → Bool) : List Char → List Char
  | [] => []
  | c :: rest => if p (c :: rest) then [] else c :: cutAtSuffix p rest

/-- `str.replace(pat, rep)` (all non-overlapping occurrences, left to
right, without rescanning the replacement). -/
def replaceAllAux (pat rep : List Char) : Nat → List Char → List Char
  | 0, cs => cs
  | _ + 1, [] => []
  | n + 1, c :: rest =>
    if prefixAt pat (c :: rest) then
      rep ++ replaceAllAux pat rep n ((c :: rest).drop pat.length)
    else c :: replaceAllAux pat rep n rest

def replaceAll (cs pat rep : List Char) : List Char :=
  replaceAllAux pat rep cs.length cs

/-- Maximal runs of characters not satisfying `p` (`re.split` on runs of
`p`-characters, empty pieces dropped). -/
def chunksNotAux (p : Char → Bool) : List Char → List Char → List (List Char)
  | [], acc => if acc.isEmpty then [] else [acc.reverse]
  | c :: rest, acc =>
    if p c then
      if acc.isEmpty then chunksNotAux p rest []
      else acc.reverse :: chunksNotAux p rest []
    else chunksNotAux p rest (c :: acc)

def chunksNot (p : Char → Bool) (cs : List Char) : List (List Char) :=
  chunksNotAux p cs []

/-- First index of a literal (Python `str.find`). -/
def firstIdxOf (cs pat : List Char) : Option Nat :=
  match cs with
  | [] => if pat.isEmpty then some 0 else none
  | _ :: t => if prefixAt pat cs then some 0 else (firstIdxOf t pat).map (· + 1)

/-- `re.sub(r"^.*kw\s+", "", s)`: everything up to and after the *last*
occurrence of `kw` followed by whitespace is removed (greedy `.*`). -/
def afterLastKwWs1 (kw : List Char) : List Char → Option (List Char)
  | [] => none
  | c :: rest =>
    match afterLastKwWs1 kw rest with
    | some r => some r
    | none => (litCI kw (c :: rest)).bind ws1

/-- `re.sub(r".*(k₁|k₂)\s*", "", s)`: after the last occurrence of either
keyword, optional whitespace also removed. -/
def afterLastKwsWs0 (kws : List (List Char)) : List Char → Option (List Char)
  | [] => none
  | c :: rest =>
    match afterLastKwsWs0 kws rest with
    | some r => some r
    | none => (kws.findSome? (fun kw => litCI kw (c :: rest))).map ws0

/-! ### The individual regexes of `intent_router.py` -/

/-- `re.split(r"\s*(?:,| and | & |;)+\s*", ...)`: one separator token. -/
def sepOnce (cs : List Char) : Option (List Char) :=
  match cs with
  | ',' :: r => some r
  | ';' :: r => some r
  | _ =>
    if prefixAtCI " and ".data cs then some (cs.drop 5)
    else if prefixAtCI " & ".data cs then some (cs.drop 3)
    else none

/-- Greedily consume further separator tokens (`(...)+`). -/
def sepPlusAux : Nat → List Char → List Char
  | 0, cs => cs
  | n + 1, cs =>
    match sepOnce cs with
    | some r => sepPlusAux n r
    | none => cs

/-- A full separator starting with one token, then more tokens, then `\s*`. -/
def sepStart (cs : List Char) : Option (List Char) :=
  match sepOnce cs with
  | none => none
  | some r => some (ws0 (sepPlusAux r.length r))

/-- `\s*(sep)+\s*`: greedy leading whitespace with backtracking — the most
leading whitespace after which a separator token still matches. -/
def delimTry (cs : List Char) : Nat → Option (List Char)
  | 0 => sepStart cs
  | k + 1 =>
    match sepStart (cs.drop (k + 1)) with
    | some r => some r
    | none => delimTry cs k

def delimAt (cs : List Char) : Option (List Char) :=
  delimTry cs ((cs.takeWhile isPyWs).length)

/-- `re.split` driver (fuel bounds the number of scan steps). -/
def splitSepsAux : Nat → List Char → List Char → List (List Char)
  | 0, acc, cs => [acc.reverse ++ cs]
  | n + 1, acc, cs =>
    match cs with
    | [] => [acc.reverse]
    | c :: rest =>
      match delimAt cs with
      | some r => acc.reverse :: splitSepsAux n [] r
      | none => splitSepsAux n (c :: acc) rest

/-- `_split_contacts`. -/
def splitContacts (raw : String) : List String :=
  if raw == "" then []
  else
    let stripped := trimL raw.data
    let parts := splitSepsAux (stripped.length + 1) [] stripped
    let cleaned := (parts.map trimL).filter (fun p => !p.isEmpty)
    if cleaned.isEmpty then [⟨trimL raw.data⟩] else cleaned.map (⟨·⟩)

/-- The start index of the last `\bto\b` match (flag: previous character was
a word character). -/
def lastWordToIdx : List Char → Bool → Option Nat
  | [], _ => none
  | c :: rest, prevW =>
    let here : Option Nat :=
      if !prevW && c == 't' then
        match rest with
        | 'o' :: r2 =>
          (match r2 with
           | [] => some 0
           | d :: _ => if isWordChar d then none else some 0)
        | _ => none
      else none
    match lastWordToIdx rest (isWordChar c) with
    | some j => some (j + 1)
    | none => here

/-- `_extract_message_and_contacts`: split the fragment after the first
"send " at the *last* word "to". -/
def extractMessageAndContacts (task : String) : Option (String × String) :=
  let lower := lowerL task.data
  if !(containsL lower "send ".data) || !(containsL lower " to ".data) then none
  else
    match firstIdxOf lower "send ".data with
    | none => none
    | some sendIdx =>
      let fragment := trimL (task.data.drop (sendIdx + 5))
      match lastWordToIdx (lowerL fragment) false with
      | none => none
      | some i =>
        let msg := trimL (fragment.take i)
        let contacts := trimL (fragment.drop (i + 2))
        if msg.isEmpty || contacts.isEmpty then none
        else some (⟨msg⟩, ⟨contacts⟩)

/-- `_browser_requested`. -/
def browserRequested (lower : String) : Bool :=
  ["browser", "web", "whatsapp.com", "in chrome", "in the browser"].any
    (fun k => strContains lower k)

/-- `https?://\S+` at one position (whole match). -/
def httpPat (cs : List Char) : Option (List Char) :=
  if prefixAt "https://".data cs then
    let cap := (cs.drop 8).takeWhile (fun c => !(isPyWs c))
    if cap.isEmpty then none else some ("https://".data ++ cap)
  else if prefixAt "http://".data cs then
    let cap := (cs.drop 7).takeWhile (fun c => !(isPyWs c))
    if cap.isEmpty then none else some ("http://".data ++ cap)
  else none

/-- The character class `[a-zA-Z0-9\-]` of the domain fallback. -/
def isDomChar (c : Char) : Bool := c.isAlpha || c.isDigit || c == '-'

/-- The tail `[a-zA-Z]{2,}\b` of the domain fallback. -/
def finishLetters (cs : List Char) : Option (List Char) :=
  let cap := cs.takeWhile Char.isAlpha
  if cap.length < 2 then none
  else
    match cs.drop cap.length with
    | [] => some cap
    | d :: _ => if isWordChar d then none else some cap

/-- `([a-zA-Z0-9\-]+\.)+[a-zA-Z]{2,}\b`: greedy group repetition with
backtracking into the final letter run (fuel bounds the recursion). -/
def domGroupsAux : Nat → List Char → Option (List Char)
  | 0, _ => none
  | n + 1, cs =>
    let chunk := cs.takeWhile isDomChar
    if chunk.isEmpty then none
    else
      match cs.drop chunk.length with
      | c :: rest =>
        if c == '.' then
          match domGroupsAux n rest with
          | some m => some (chunk ++ '.' :: m)
          | none => (finishLetters rest).map (fun m => chunk ++ '.' :: m)
        else none
      | [] => none

def domPat (cs : List Char) : Option (List Char) :=
  domGroupsAux cs.length cs

/-- `_extract_url`: prefer an explicit `http(s)` URL (right-stripped of
`.,)`), fall back to a domain-like token at a word boundary. -/
def extractUrl (task : String) : Option String :=
  match searchPos httpPat task.data with
  | some m => some ⟨rstripL ['.', ',', ')'] m⟩
  | none => (searchBndry domPat task.data false).map (⟨·⟩)

/-- `\s+on screen$` from one position. -/
def trailOnScreenB (cs : List Char) : Bool :=
  match (ws1 cs).bind (litCI "on screen".data) with
  | some r => atLineEndAnchor r
  | none => false

/-- `\s+(song|music|track)$` from one position. -/
def trailQualB (cs : List Char) : Bool :=
  match ws1 cs with
  | none => false
  | some r =>
    ["song", "music", "track"].any (fun w =>
      match litCI w.data r with
      | some rest => atLineEndAnchor rest
      | none => false)

/-- `\s+(on|in)\s+apple\s+music$` from one position (`kw` is "on" or "in"). -/
def trailAppleB (kw : List Char) (cs : List Char) : Bool :=
  (((((ws1 cs).bind (litCI kw)).bind ws1).bind
      (litCI "apple".data)).bind ws1).bind (litCI "music".data) |>.any atLineEndAnchor

/-- `\bplay\s+(.+)$` at one position: group 1 runs to the end of the line. -/
def playPat (cs : List Char) : Option (List Char) :=
  ((litCI "play".data cs).bind ws1).bind fun r =>
    let cap := r.takeWhile (fun c => !(c == '\n'))
    if cap.isEmpty then none
    else if atLineEndAnchor (r.drop cap.length) then some cap
    else none

/-- `_extract_song`: the literal "play X" target with trailing qualifiers
stripped. -/
def extractSong (task : String) : Option String :=
  match searchBAux playPat task.data true with
  | none => none
  | some cap =>
    let song := trimL cap
    let song := trimL (cutAtSuffix trailQualB song)
    let song := trimL (cutAtSuffix (trailAppleB "on".data) song)
    let song := trimL (cutAtSuffix (trailAppleB "in".data) song)
    if song.isEmpty then none else some ⟨song⟩

/-- `['\"]([^'\"]+)['\"]` at one position. -/
def isQuoteChar (c : Char) : Bool := c == '\x27' || c == '"'

def quotedPat (cs : List Char) : Option (List Char) :=
  match cs with
  | [] => none
  | c :: rest =>
    if isQuoteChar c then
      let cap := rest.takeWhile (fun d => !(isQuoteChar d))
      if cap.isEmpty then none
      else
        match rest.drop cap.length with
        | d :: _ => if isQuoteChar d then some cap else none
        | [] => none
    else none

/-- `_extract_quoted`. -/
def extractQuoted (text : String) : Option String :=
  (searchPos quotedPat text.data).map (⟨·⟩)

/-- The capture class `[a-zA-Z0-9+\- ]` of `_parse_hotkey`. -/
def isHotChar (c : Char) : Bool :=
  c.isAlpha || c.isDigit || c == '+' || c == '-' || c == ' '

/-- `(?:hotkey|press)\s+([a-zA-Z0-9+\- ]+)$` at one position. -/
def hotkeyPat (cs : List Char) : Option (List Char) :=
  (match litCI "hotkey".data cs with
   | some r => some r
   | none => litCI "press".data cs).bind fun r1 =>
  (ws1 r1).bind fun r2 =>
    let cap := r2.takeWhile isHotChar
    if cap.isEmpty then none
    else if atLineEndAnchor (r2.drop cap.length) then some cap
    else none

/-- `_parse_hotkey`: capture the combo, normalise `cmd`/`control`, split on
`+`/whitespace, require at least two parts. -/
def parseHotkey (task : String) : Option (List String) :=
  match searchPos hotkeyPat task.data with
  | none => none
  | some cap =>
    let combo := lowerL (trimL cap)
    let combo := replaceAll combo "cmd".data "command".data
    let combo := replaceAll combo "control".data "ctrl".data
    let parts := chunksNot (fun c => c == '+' || isPyWs c) combo
    if 2 ≤ parts.length then some (parts.map (⟨·⟩)) else none

/-- `click\s+at\s*(\d+)\s*,\s*(\d+)` at one position. -/
def clickAtP1 (cs : List Char) : Option (Nat × Nat) :=
  ((((litCI "click".data cs).bind ws1).bind (litCI "at".data)).bind fun r3 =>
    (digits1 (ws0 r3)).bind fun xr =>
      ((litCS [','] (ws0 xr.2)).bind fun r5 =>
        (digits1 (ws0 r5)).map fun yr => (xr.1, yr.1)))

/-- `click\s*(\d+)\s*,\s*(\d+)` at one position. -/
def clickAtP2 (cs : List Char) : Option (Nat × Nat) :=
  (litCI "click".data cs).bind fun r1 =>
    (digits1 (ws0 r1)).bind fun xr =>
      ((litCS [','] (ws0 xr.2)).bind fun r3 =>
        (digits1 (ws0 r3)).map fun yr => (xr.1, yr.1))

/-- `_parse_click_at`. -/
def parseClickAt (task : String) : Option (Nat × Nat) :=
  match searchPos clickAtP1 task.data with
  | some r => some r
  | none => searchPos clickAtP2 task.data

/-- The tail of `\bclick .+ on screen\b` after "click ": at least one
non-newline character, then " on screen" at a trailing word boundary. -/
def onScreenTail : List Char → Option Unit
  | [] => none
  | c :: rest =>
    if c == '\n' then none
    else
      match litCS " on screen".data rest with
      | some r =>
        if (match r with
            | [] => true
            | d :: _ => !(isWordChar d)) then some ()
        else onScreenTail rest
      | none => onScreenTail rest

/-- `re.search(r"\bclick .+ on screen\b", lower)`. -/
def reClickOnScreen (lowerCs : List Char) : Bool :=
  (searchBAux (fun cs => (litCS "click ".data cs).bind onScreenTail)
    lowerCs true).isSome

/-- `re.sub(r"^(system|screen)\s+KW\s+", "", task)`. -/
def subSysScreenKw (kw : List Char) (cs : List Char) : List Char :=
  match (((litCI "system".data cs).bind ws1).bind (litCI kw)).bind ws1 with
  | some r => r
  | none =>
    match (((litCI "screen".data cs).bind ws1).bind (litCI kw)).bind ws1 with
    | some r => r
    | none => cs

/-- `re.sub(r"^KW\s+", "", task)`. -/
def subLeadKw (kw : List Char) (cs : List Char) : List Char :=
  match (litCI kw cs).bind ws1 with
  | some r => r
  | none => cs

/-- `re.sub(r"^(A₁|A₂|...)\s+", "", task)`: first alternative whose literal
and trailing whitespace both match. -/
def subLeadAlts (alts : List (List Char)) (cs : List Char) : List Char :=
  match alts.findSome? (fun a => (litCI a cs).bind ws1) with
  | some r => r
  | none => cs

/-- `re.sub(r"^(git\s+commit|commit)\s+", "", task)`. -/
def subLeadCommit (cs : List Char) : List Char :=
  match (((litCI "git".data cs).bind ws1).bind (litCI "commit".data)).bind ws1 with
  | some r => r
  | none =>
    match (litCI "commit".data cs).bind ws1 with
    | some r => r
    | none => cs

/-- `\bvolume\b\s*(?:to)?\s*(\d{1,3})` at one position (starting at
"volume"). -/
def volumePat (cs : List Char) : Option Nat :=
  (litCS "volume".data cs).bind fun r1 =>
    if (match r1 with
        | [] => true
        | c :: _ => !(isWordChar c)) then
      let r2 := ws0 r1
      match (litCS "to".data r2).bind (fun r => (digitsAtMost 3 (ws0 r)).map (·.1)) with
      | some n => some n
      | none => (digitsAtMost 3 r2).map (·.1)
    else none

/-- `scroll\s+(up|down|left|right|top|bottom)(?:\s+(\d+))?` at one position. -/
def scrollPat (cs : List Char) : Option (String × Option Nat) :=
  ((litCS "scroll".data cs).bind ws1).bind fun r2 =>
    (["up", "down", "left", "right", "top", "bottom"].findSome?
        (fun d => (litCS d.data r2).map (fun r => (d, r)))).map fun dr =>
      match (ws1 dr.2).bind digits1 with
      | some nr => (dr.1, some nr.1)
      | none => (dr.1, none)

/-- `switch tab\s+(\d+)` at one position. -/
def switchTabPat (cs : List Char) : Option Nat :=
  (((litCS "switch tab".data cs).bind ws1).bind digits1).map (·.1)

/-- `advance goal\s+([a-zA-Z0-9]+)` / `complete goal\s+([a-zA-Z0-9]+)` at
one position. -/
def goalIdPat (kw : List Char) (cs : List Char) : Option String :=
  ((litCS kw cs).bind ws1).bind fun r =>
    let cap := r.takeWhile (fun c => c.isAlpha || c.isDigit)
    if cap.isEmpty then none else some ⟨cap⟩

/-- `(graph|codebase graph)\s+(.+)$` at one position (group 2). -/
def graphPat (cs : List Char) : Option (List Char) :=
  ((match litCI "graph".data cs with
    | some r => some r
    | none => litCI "codebase graph".data cs).bind ws1).bind fun r =>
    let cap := r.takeWhile (fun c => !(c == '\n'))
    if cap.isEmpty then none
    else if atLineEndAnchor (r.drop cap.length) then some cap
    else none

/-- The first number in the text (`re.search(r"(\d+)", ...)`). -/
def firstNumber (cs : List Char) : Option Nat :=
  (searchPos digits1 cs).map (·.1)

/-- The backtick character (code point 96). -/
def backtickChar : Char := Char.ofNat 96

/-- The inline command pattern (backtick-quoted, at one position). -/
def backtickPat (cs : List Char) : Option (List Char) :=
  match cs with
  | [] => none
  | c :: rest =>
    if c == backtickChar then
      let cap := rest.takeWhile (fun d => !(d == backtickChar))
      if cap.isEmpty then none
      else
        match rest.drop cap.length with
        | d :: _ => if d == backtickChar then some cap else none
        | [] => none
    else none

/-- `task.split(":", 1)[-1]`. -/
def afterFirstColon (cs : List Char) : List Char :=
  match firstIdxOf cs [':'] with
  | some i => cs.drop (i + 1)
  | none => cs

/-- Last index of a character. -/
def lastIdxOfChar (cs : List Char) (ch : Char) : Option Nat :=
  match cs with
  | [] => none
  | c :: rest =>
    match lastIdxOfChar rest ch with
    | some j => some (j + 1)
    | none => if c == ch then some 0 else none

/-- `(\{.*\})?`: a greedy brace group on the current line. -/
def braceGroupAt (cs : List Char) : Option (List Char) :=
  match cs with
  | c :: rest =>
    if c == Char.ofNat 123 then
      let line := rest.takeWhile (fun d => !(d == '\n'))
      match lastIdxOfChar line (Char.ofNat 125) with
      | some j => some (c :: (line.take j ++ [Char.ofNat 125]))
      | none => none
    else none
  | [] => none

/-- `call mcp tool\s+(\w+)\s*(\{.*\})?` at one position. -/
def mcpPat (cs : List Char) : Option (String × Option String) :=
  ((litCI "call mcp tool".data cs).bind ws1).bind fun r2 =>
    let name := r2.takeWhile isWordChar
    if name.isEmpty then none
    else
      match braceGroupAt (ws0 (r2.drop name.length)) with
      | some g => some (⟨name⟩, some ⟨g⟩)
      | none => some (⟨name⟩, none)

/-- The selector class of the `chrome type` branch.  The source's class is
written with doubled backslashes (`[#\\.\\w\\[\\]=\\-]`), so it matches `#`,
backslash, dot, the letter `w`, brackets, `=` and `-` literally. -/
def isSelChar (c : Char) : Bool :=
  c == '#' || c == '\\' || c == '.' || c == 'w' || c == '[' || c == ']' ||
    c == '=' || c == '-'

/-- `(?:into|in)\s+([#\\.\\w\\[\\]=\\-]+)$` at one position
(case-sensitive). -/
def selectorPat (cs : List Char) : Option (List Char) :=
  ((match litCS "into".data cs with
    | some r => some r
    | none => litCS "in".data cs).bind ws1).bind fun r =>
    let cap := r.takeWhile isSelChar
    if cap.isEmpty then none
    else if atLineEndAnchor (r.drop cap.length) then some cap
    else none

/-- `(?:into|in)\s+.+$` from one position (used to cut the selector tail
out of the typed text). -/
def intoTailB (cs : List Char) : Bool :=
  match (match litCI "into".data cs with
         | some r => some r
         | none => litCI "in".data cs).bind ws1 with
  | none => false
  | some r =>
    let cap := r.takeWhile (fun c => !(c == '\n'))
    !cap.isEmpty && atLineEndAnchor (r.drop cap.length)

/-- `(write|save)\s+file\s+(.+?)\s+with\s+(.+)$` (DOTALL): lazily split at
the first `\s+with\s+` with non-empty path and content. -/
def wfSplitAux : List Char → List Char → Option (List Char × List Char)
  | _, [] => none
  | acc, c :: rest =>
    match
      (if acc.isEmpty then none
       else
         (((ws1 (c :: rest)).bind (litCI "with".data)).bind ws1).bind fun r2 =>
           if r2.isEmpty then none else some (acc.reverse, r2)) with
    | some r => some r
    | none => wfSplitAux (c :: acc) rest

def writeFilePat (cs : List Char) : Option (String × String) :=
  match ((((match litCI "write".data cs with
            | some r => some r
            | none => litCI "save".data cs).bind ws1).bind
      (litCI "file".data)).bind ws1) with
  | none => none
  | some r =>
    match wfSplitAux [] r with
    | none => none
    | some pc => some (⟨trimL pc.1⟩, ⟨trimL pc.2⟩)

/-- `re.sub(r"^(read|open)\s+file\s+", "", task)`. -/
def subLeadReadOpenFile (cs : List Char) : List Char :=
  match (((litCI "read".data cs).bind ws1).bind (litCI "file".data)).bind ws1 with
  | some r => r
  | none =>
    match (((litCI "open".data cs).bind ws1).bind (litCI "file".data)).bind ws1 with
    | some r => r
    | none => cs

/-- `grep\s+(.+?)\s+in\s+(.+)$`: lazily split at the first `\s+in\s+`. -/
def grepSplitAux : List Char → List Char → Option (List Char × List Char)
  | _, [] => none
  | acc, c :: rest =>
    match
      (if acc.isEmpty then none
       else
         (((ws1 (c :: rest)).bind (litCI "in".data)).bind ws1).bind fun r2 =>
           (let cap := r2.takeWhile (fun d => !(d == '\n'))
            if cap.isEmpty then none
            else if atLineEndAnchor (r2.drop cap.length) then some (acc.reverse, cap)
            else none)) with
    | some r => some r
    | none => grepSplitAux (c :: acc) rest

def grepPat (cs : List Char) : Option (String × String) :=
  ((litCI "grep".data cs).bind ws1).bind fun r =>
    (grepSplitAux [] r).map fun pc => (⟨trimL pc.1⟩, ⟨trimL pc.2⟩)

/-! ## `src/core/intent_router.py` — the dispatch cascade

Each guard block of `try_handle` becomes a function returning
`Option (Option Action)`: `some (some a)` models `return <tool call a>`,
`some none` models an explicit `return None`, and `none` means the guard
fell through to the next block.  The tool functions the router calls are
abstracted into the `Action` datatype (their runtime output strings are
outside the router's control). -/

/-- The tool invocation a router branch resolves to. -/
inductive Action where
  | systemClickAt (x y : Nat)
  | systemClick (target : String)
  | findTextOnScreen (query region : String)
  | findAndClickTextOnScreen (query region : String)
  | systemType (text : String)
  | systemHotkey (keys : List String)
  | systemPress (key : String)
  | chromeScreenshot
  | chromeListTabs
  | chromeNewTab (url : Option String)
  | chromeSwitchTab (n : Nat)
  | chromeScroll (direction : String) (amount : Nat)
  | chromePressKey (key : String)
  | chromeVerifyText (text : String)
  | chromeGetText
  | chromeType (text : String) (selector : Option String)
  | chromeClick (selector text : String) (index : Nat)
  | sendWhatsappWeb (contacts : List String) (message : String)
  | sendWhatsappDesktop (contacts : List String) (message : String)
  | navigate (url : String)
  | visitPage (url : String)
  | openApp (name : String)
  | musicControl (command : String) (songName : Option String)
  | setVolume (level : Nat)
  | wifiControl (state : String)
  | bluetoothControl (state : String)
  | todoAdd (text : String)
  | todoList
  | todoComplete (n : Nat)
  | webSearch (query : String)
  | rememberFact (fact : String)
  | memorySearch (query : String)
  | memoryForget (n : Nat)
  | memoryLock (n : Nat)
  | memoryStats
  | memoryExport
  | listGoals
  | advanceGoal (goalId : String)
  | completeGoal (goalId : String)
  | generateGraph (path : String)
  | gitStatus
  | gitCommit (message : String)
  | runTerminal (cmd : String)
  | safetyBlock (message : String)
  | listMcpTools
  | callMcpTool (name args : String)
  | readFile (path : String)
  | writeFile (path content : String)
  | grepFiles (pattern path : String)
deriving DecidableEq

/-- First-return-wins chaining of guard blocks. -/
def routeOr (a b : Option (Option Action)) : Option (Option Action) :=
  match a with
  | some r => some r
  | none => b

/-- `lower = task.lower().strip()`. -/
def lowerOf (task : String) : String := ⟨trimL (lowerL task.data)⟩

/-- Section A: explicit system/screen/vision commands. -/
def screenA1 (task : String) : Option (Option Action) :=
  (parseClickAt task).map (fun xy => some (.systemClickAt xy.1 xy.2))

def screenA2 (task : String) : Option (Option Action) :=
  let lower := lowerOf task
  if reClickOnScreen lower.data || strStartsWith lower "system click" ||
      strStartsWith lower "screen click" then
    let target := strTrim ⟨subSysScreenKw "click".data task.data⟩
    let target := strTrim ⟨cutAtSuffix trailOnScreenB target.data⟩
    if target == "" then none else some (some (.systemClick target))
  else none

def screenA3 (task : String) : Option (Option Action) :=
  let lower := lowerOf task
  if strStartsWith lower "find " && strContains lower " on screen" then
    let query := subLeadKw "find".data task.data
    let query := strTrim ⟨cutAtSuffix trailOnScreenB query⟩
    if query == "" then none
    else some (some (.findTextOnScreen query "full screen"))
  else none

def screenA4 (task : String) : Option (Option Action) :=
  let lower := lowerOf task
  if reClickOnScreen lower.data || strStartsWith lower "click " then
    if strContains lower "on screen" then
      let query := subLeadKw "click".data task.data
      let query := strTrim ⟨cutAtSuffix trailOnScreenB query⟩
      if query == "" then none
      else some (some (.findAndClickTextOnScreen query "full screen"))
    else none
  else none

def screenA5 (task : String) : Option (Option Action) :=
  let lower := lowerOf task
  if strStartsWith lower "system type" || strStartsWith lower "screen type" ||
      strContains lower "type on screen" then
    let text0 := match extractQuoted task with
      | some q => q.data
      | none => subSysScreenKw "type".data task.data
    let text := strTrim ⟨cutAtSuffix trailOnScreenB text0⟩
    if text == "" then none else some (some (.systemType text))
  else none

def screenA6 (task : String) : Option (Option Action) :=
  let lower := lowerOf task
  match parseHotkey task with
  | some keys =>
    if (strContains lower "hotkey" || strContains lower "press") &&
        (!(strContains lower "browser") && !(strContains lower "chrome")) then
      some (some (.systemHotkey keys))
    else none
  | none => none

def screenA7 (task : String) : Option (Option Action) :=
  let lower := lowerOf task
  if strStartsWith lower "press " &&
      (!(strContains lower "browser") && !(strContains lower "chrome")) then
    let key := strTrim ⟨subLeadKw "press".data task.data⟩
    if key == "" then none else some (some (.systemPress key))
  else none

def branchScreen (task : String) : Option (Option Action) :=
  routeOr (screenA1 task) (routeOr (screenA2 task) (routeOr (screenA3 task)
    (routeOr (screenA4 task) (routeOr (screenA5 task)
      (routeOr (screenA6 task) (screenA7 task))))))

/-- Section B: `chrome`/`browser`-prefixed explicit commands (each inner
`if` either returns or falls to the next check, and a prefix with no inner
match falls out of the whole block). -/
def branchChrome (task : String) : Option (Option Action) :=
  let lower := lowerOf task
  if strStartsWith lower "chrome " || strStartsWith lower "browser " then
    routeOr (if strContains lower "screenshot" then some (some .chromeScreenshot) else none)
    (routeOr (if strContains lower "list tabs" then some (some .chromeListTabs) else none)
    (routeOr (if strContains lower "new tab" then
        some (some (.chromeNewTab (extractUrl task))) else none)
    (routeOr (if strContains lower "switch tab" then
        match searchPos switchTabPat lower.data with
        | some n => some (some (.chromeSwitchTab n))
        | none => none
      else none)
    (routeOr (if strContains lower "scroll" then
        match searchPos scrollPat lower.data with
        | some da => some (some (.chromeScroll da.1 (da.2.getD 500)))
        | none => none
      else none)
    (routeOr (if strContains lower "press " then
        let key := strTrim ⟨(afterLastKwWs1 "press".data task.data).getD task.data⟩
        if key == "" then none else some (some (.chromePressKey key))
      else none)
    (routeOr (if strContains lower "verify text" then
        let text := strTrim ⟨(afterLastKwWs1 "verify text".data task.data).getD task.data⟩
        if text == "" then none else some (some (.chromeVerifyText text))
      else none)
    (routeOr (if strContains lower "get text" then some (some .chromeGetText) else none)
    (routeOr (if strContains lower "type " then
        let selector := (searchPos selectorPat task.data).map (fun s => (⟨s⟩ : String))
        let text : Option String :=
          match extractQuoted task with
          | some q => some q
          | none =>
            let t := ⟨(afterLastKwWs1 "type".data task.data).getD task.data⟩
            match selector with
            | some _ => some (strTrim ⟨cutAtSuffix intoTailB (String.data t)⟩)
            | none => some t
        match text with
        | some t => if t == "" then none else some (some (.chromeType t selector))
        | none => none
      else none)
    (if strContains lower "click " then
        let text := strTrim ⟨(afterLastKwWs1 "click".data task.data).getD task.data⟩
        if text == "" then none else some (some (.chromeClick "" text 0))
      else none)))))))))
  else none

/-- Block 1: WhatsApp messaging (browser or desktop). -/
def branchMessaging (task : String) : Option (Option Action) :=
  let lower := lowerOf task
  match extractMessageAndContacts task with
  | some mc =>
    if strContains lower "whatsapp" || strContains lower "whats app" then
      let contacts := splitContacts mc.2
      if browserRequested lower then
        some (some (.sendWhatsappWeb contacts mc.1))
      else
        some (some (.sendWhatsappDesktop contacts mc.1))
    else none
  | none => none

/-- Block 2: open WhatsApp Web. -/
def branchWhatsappWeb (task : String) : Option (Option Action) :=
  let lower := lowerOf task
  if (strContains lower "whatsapp" || strContains lower "whats app") &&
      browserRequested lower && !(strContains lower "send ") then
    some (some (.navigate "https://web.whatsapp.com"))
  else none

/-- Block 3: open a URL in the browser or via the page-visit fallback. -/
def branchUrl (task : String) : Option (Option Action) :=
  let lower := lowerOf task
  if ["open ", "visit ", "go to ", "navigate "].any (fun k => strContains lower k) then
    match extractUrl task with
    | some url =>
      if browserRequested lower then some (some (.navigate url))
      else some (some (.visitPage url))
    | none => none
  else none

/-- `APP_ALIASES` (insertion order matters: first alias contained in the
text wins). -/
def APP_ALIASES : List (String × String) :=
  [("apple music", "Apple Music"), ("music", "Music"),
   ("calculator", "Calculator"), ("chrome", "Google Chrome"),
   ("google chrome", "Google Chrome"), ("safari", "Safari"),
   ("whatsapp", "WhatsApp")]

/-- Block 4: open an application by alias. -/
def branchOpenApp (task : String) : Option (Option Action) :=
  let lower := lowerOf task
  if strStartsWith lower "open " then
    let appRaw := strLower (strTrim ⟨task.data.drop 5⟩)
    match APP_ALIASES.findSome?
        (fun al => if strContains appRaw al.1 then some al.2 else none) with
    | some app => some (some (.openApp app))
    | none => none
  else none

/-- Block 5: music controls. -/
def branchMusic (task : String) : Option (Option Action) :=
  let lower := lowerOf task
  routeOr
    (match extractSong task with
     | some song => some (some (.musicControl "play" (some song)))
     | none => none)
  (routeOr
    (if strContains lower "pause" && strContains lower "music" then
      some (some (.musicControl "pause" none)) else none)
  (routeOr
    (if strContains lower "next" && strContains lower "song" then
      some (some (.musicControl "next" none)) else none)
    (if (strContains lower "previous" || strContains lower "prev") &&
        (strContains lower "song" || strContains lower "track") then
      some (some (.musicControl "prev" none)) else none)))

/-- Block 6: volume. -/
def branchVolume (task : String) : Option (Option Action) :=
  let lower := lowerOf task
  match searchBAux volumePat lower.data true with
  | some level => some (some (.setVolume level))
  | none => none

/-- Block 7: WiFi / Bluetooth toggles. -/
def branchWifiBt (task : String) : Option (Option Action) :=
  let lower := lowerOf task
  routeOr
    (if strContains lower "wifi" then
      if ["on", "enable", "turn on"].any (fun k => strContains lower k) then
        some (some (.wifiControl "on"))
      else if ["off", "disable", "turn off"].any (fun k => strContains lower k) then
        some (some (.wifiControl "off"))
      else none
     else none)
    (if strContains lower "bluetooth" then
      if ["on", "enable", "turn on"].any (fun k => strContains lower k) then
        some (some (.bluetoothControl "on"))
      else if ["off", "disable", "turn off"].any (fun k => strContains lower k) then
        some (some (.bluetoothControl "off"))
      else none
     else none)

/-- Block 8: todo (note the explicit `return None` on an empty task text). -/
def branchTodo (task : String) : Option (Option Action) :=
  let lower := lowerOf task
  routeOr
    (if strStartsWith lower "todo " || strContains lower "add todo" ||
        strContains lower "add task" then
      let taskText := strTrim (match firstIdxOf task.data "todo".data with
        | some i => ⟨task.data.drop (i + 4)⟩
        | none => task)
      if taskText == "" then some none
      else some (some (.todoAdd taskText))
     else none)
  (routeOr
    (if strContains lower "list todos" || strContains lower "list todo" then
      some (some .todoList) else none)
    (if strContains lower "complete todo" || strContains lower "complete task" then
      match firstNumber lower.data with
      | some n => some (some (.todoComplete n))
      | none => none
     else none))

/-- Block 9: web search. -/
def branchSearch (task : String) : Option (Option Action) :=
  let lower := lowerOf task
  if strStartsWith lower "search " || strContains lower "search for" ||
      strStartsWith lower "google " then
    let query := strTrim
      ⟨subLeadAlts ["search for".data, "search".data, "google".data] task.data⟩
    if query == "" then none else some (some (.webSearch query))
  else none

/-- Block 10: memory commands. -/
def branchMemory (task : String) : Option (Option Action) :=
  let lower := lowerOf task
  routeOr
    (if strStartsWith lower "remember that " then
      let fact := strTrim ⟨task.data.drop 14⟩
      if fact == "" then none else some (some (.rememberFact fact))
     else none)
  (routeOr
    (if strStartsWith lower "remember " then
      let fact := strTrim ⟨task.data.drop 9⟩
      if fact == "" then none else some (some (.rememberFact fact))
     else none)
  (routeOr
    (if strContains lower "memory search" || strContains lower "search memory" then
      let query := strTrim
        ⟨(afterLastKwsWs0 ["memory search".data, "search memory".data] task.data).getD
          task.data⟩
      if query == "" then none else some (some (.memorySearch query))
     else none)
  (routeOr
    (if strStartsWith lower "forget memory" then
      match firstNumber lower.data with
      | some n => some (some (.memoryForget n))
      | none => none
     else none)
  (routeOr
    (if strStartsWith lower "lock memory" then
      match firstNumber lower.data with
      | some n => some (some (.memoryLock n))
      | none => none
     else none)
  (routeOr
    (if strContains lower "memory stats" then some (some .memoryStats) else none)
    (if strContains lower "export memory" then some (some .memoryExport) else none))))))

/-- Block 11: goal commands. -/
def branchGoals (task : String) : Option (Option Action) :=
  let lower := lowerOf task
  routeOr
    (if strContains lower "list goals" then some (some .listGoals) else none)
  (routeOr
    (if strStartsWith lower "advance goal" then
      match searchPos (goalIdPat "advance goal".data) lower.data with
      | some gid => some (some (.advanceGoal gid))
      | none => none
     else none)
    (if strStartsWith lower "complete goal" then
      match searchPos (goalIdPat "complete goal".data) lower.data with
      | some gid => some (some (.completeGoal gid))
      | none => none
     else none))

/-- Block 12: codebase graph (always returns when its keywords appear). -/
def branchGraph (task : String) : Option (Option Action) :=
  let lower := lowerOf task
  if strContains lower "generate graph" || strContains lower "codebase graph" then
    let path := match searchPos graphPat task.data with
      | some p => strTrim ⟨p⟩
      | none => "."
    some (some (.generateGraph path))
  else none

/-- Block 13: git. -/
def branchGit (task : String) : Option (Option Action) :=
  let lower := lowerOf task
  routeOr
    (if strContains lower "git status" || strTrim lower == "status" then
      some (some .gitStatus) else none)
  (routeOr
    (if strStartsWith lower "commit " || strStartsWith lower "git commit " then
      let msg := strTrim ⟨subLeadCommit task.data⟩
      if msg == "" then none else some (some (.gitCommit msg))
     else none)
    (if strStartsWith lower "checkpoint " then
      let msg := strTrim ⟨task.data.drop 11⟩
      if msg == "" then none else some (some (.gitCommit msg))
     else none))

/-- Block 14 (first copy, lines 382-389): explicit terminal commands — this
copy invokes `run_terminal` directly, with **no** `mistake_guard`
validation. -/
def branchTerminal1 (task : String) : Option (Option Action) :=
  let lower := lowerOf task
  routeOr
    (if strStartsWith lower "run:" || strStartsWith lower "execute:" ||
        strStartsWith lower "cmd:" then
      let cmd := strTrim ⟨afterFirstColon task.data⟩
      if cmd == "" then none else some (some (.runTerminal cmd))
     else none)
    (match searchPos backtickPat task.data with
     | some cmd =>
       if strContains lower "run" || strContains lower "execute" then
         some (some (.runTerminal ⟨cmd⟩))
       else none
     | none => none)

/-- Block 15: MCP. -/
def branchMcp (task : String) : Option (Option Action) :=
  let lower := lowerOf task
  routeOr
    (if strContains lower "list mcp tools" then some (some .listMcpTools) else none)
    (match searchPos mcpPat task.data with
     | some na => some (some (.callMcpTool na.1 (na.2.getD "\x7b\x7d")))
     | none => none)

/-- Files block (second numbering "10"): read/write/grep. -/
def branchFiles (task : String) : Option (Option Action) :=
  let lower := lowerOf task
  routeOr
    (if strStartsWith lower "read file" || strStartsWith lower "open file" then
      let path := strTrim ⟨subLeadReadOpenFile task.data⟩
      if path == "" then none else some (some (.readFile path))
     else none)
  (routeOr
    (if strStartsWith lower "write file" || strStartsWith lower "save file" then
      match searchPos writeFilePat task.data with
      | some pc => some (some (.writeFile pc.1 pc.2))
      | none => none
     else none)
    (if strStartsWith lower "grep " then
      match searchPos grepPat task.data with
      | some pp => some (some (.grepFiles pp.1 pp.2))
      | none => none
     else none))

/-- Block 15 (second copy, lines 475-489): terminal commands **with** the
`mistake_guard.validate_command` check — unreachable behind
`branchTerminal1`, which has identical guards. -/
def branchTerminal2 (task : String) : Option (Option Action) :=
  let lower := lowerOf task
  routeOr
    (if strStartsWith lower "run:" || strStartsWith lower "execute:" ||
        strStartsWith lower "cmd:" then
      let cmd := strTrim ⟨afterFirstColon task.data⟩
      if cmd == "" then none
      else
        match validateCommand cmd with
        | some g => some (some (.safetyBlock ("❌ " ++ g)))
        | none => some (some (.runTerminal cmd))
     else none)
    (match searchPos backtickPat task.data with
     | some cmd =>
       if strContains lower "run" || strContains lower "execute" then
         match validateCommand ⟨cmd⟩ with
         | some g => some (some (.safetyBlock ("❌ " ++ g)))
         | none => some (some (.runTerminal ⟨cmd⟩))
       else none
     | none => none)

/-- `try_handle`: the ordered cascade, including the duplicated blocks of
the source (the second memory/goals/graph/git/terminal/MCP group sits after
the files block and is shadowed by the first). -/
def tryHandle (task : String) : Option Action :=
  if task == "" then none
  else
    (routeOr (branchScreen task)
    (routeOr (branchChrome task)
    (routeOr (branchMessaging task)
    (routeOr (branchWhatsappWeb task)
    (routeOr (branchUrl task)
    (routeOr (branchOpenApp task)
    (routeOr (branchMusic task)
    (routeOr (branchVolume task)
    (routeOr (branchWifiBt task)
    (routeOr (branchTodo task)
    (routeOr (branchSearch task)
    (routeOr (branchMemory task)
    (routeOr (branchGoals task)
    (routeOr (branchGraph task)
    (routeOr (branchGit task)
    (routeOr (branchTerminal1 task)
    (routeOr (branchMcp task)
    (routeOr (branchFiles task)
    (routeOr (branchMemory task)
    (routeOr (branchGoals task)
    (routeOr (branchGraph task)
    (routeOr (branchGit task)
    (routeOr (branchTerminal2 task)
             (branchMcp task)))))))))))))))))))))))).getD none

/-- A concrete locked, already-expired fact (used to exercise the purge
exemption). -/
def lockedFactExample : Fact :=
  { id := 1, subject := "user", predicate := "name", obj := "Ada",
    confidence := 7/10, sourceEventId := none, createdAt := 0,
    updatedAt := none, expiresAt := some 5, locked := true,
    isDeleted := false, deletedAt := none, metadata := {} }

/-- A store holding only `lockedFactExample`. -/
def lockedStoreExample : MemoryStore :=
  { facts := [lockedFactExample], nextId := 2 }

/-! ## Helper lemmas about the string utilities -/

theorem prefixAt_iff (pat cs : List Char) :
    prefixAt pat cs = true ↔ pat <+: cs := by
  induction pat generalizing cs with
  | nil => simp [prefixAt]
  | cons p ps ih =>
    cases cs with
    | nil => simp [prefixAt]
    | cons c cs' =>
      have heq : prefixAt (p :: ps) (c :: cs') = (p == c && prefixAt ps cs') := rfl
      rw [heq]
      simp only [Bool.and_eq_true, beq_iff_eq, ih, List.cons_prefix_cons]

theorem containsL_iff (cs pat : List Char) :
    containsL cs pat = true ↔ pat <:+: cs := by
  induction cs with
  | nil =>
    cases pat with
    | nil =>
      constructor
      · intro _
        exact List.infix_rfl
      · intro _
        rfl
    | cons p ps =>
      constructor
      · intro h
        exact nomatch h
      · intro h
        exact absurd (List.infix_nil.mp h) (by simp)
  | cons c t ih =>
    have heq : containsL (c :: t) pat = (prefixAt pat (c :: t) || containsL t pat) := rfl
    rw [heq]
    simp only [Bool.or_eq_true, prefixAt_iff, ih]
    constructor
    · rintro (h | h)
      · exact h.isInfix
      · exact List.infix_cons h
    · rintro ⟨s, t', hst⟩
      cases s with
      | nil =>
        left
        exact ⟨t', by simpa using hst⟩
      | cons x s' =>
        right
        have ht : s' ++ pat ++ t' = t := by
          have := congrArg List.tail hst
          simpa using this
        exact ⟨s', t', ht⟩

/-- Containment is transitive: if `b` occurs in `a` and `c` occurs in `b`,
then `c` occurs in `a`. -/
theorem strContains_trans {a b c : String}
    (h1 : strContains a b = true) (h2 : strContains b c = true) :
    strContains a c = true := by
  rw [strContains, containsL_iff] at *
  exact h2.trans h1

/-- Lowercasing both sides preserves containment. -/
theorem strContains_lower {a b : String} (h : strContains a b = true) :
    strContains (strLower a) (strLower b) = true := by
  rw [strContains, containsL_iff] at *
  exact h.map Char.toLower

/-- Every strict verification call is also a generic verification call. -/
theorem hasStrict_imp_hasVerification (steps : List Step)
    (h : hasStrictVerification steps = true) : hasVerification steps = true := by
  rw [hasStrictVerification, List.any_eq_true] at h
  obtain ⟨s, hs, hp⟩ := h
  rw [hasVerification, List.any_eq_true]
  refine ⟨s, hs, ?_⟩
  cases s with
  | other => simp at hp
  | action c e o =>
    simp only [Bool.or_eq_true] at hp
    simp only [VERIFY_CALLS, List.any_cons, List.any_nil, Bool.or_eq_true]
    tauto

/-! ## Claim C1 -/

/-- C1 (code bug): the reachable terminal branches of `try_handle` invoke
`run_terminal` *without* consulting `mistake_guard.validate_command`.  Both
the `run:`-prefixed path and the backtick path run a `sudo` command that the
validator would have blocked; the guarded duplicate of these branches later
in the function is shadowed by these unguarded copies. -/
theorem C1_terminal_branches_bypass_guard :
    tryHandle "run: sudo ls" = some (.runTerminal "sudo ls") ∧
      tryHandle "run `sudo ls` now" = some (.runTerminal "sudo ls") ∧
      validateCommand "sudo ls" =
        some "⛔ SAFETY BLOCK: Command contains prohibited pattern \x27sudo\x27" ∧
      branchTerminal2 "run: sudo ls" =
        some (some (.safetyBlock
          "❌ ⛔ SAFETY BLOCK: Command contains prohibited pattern \x27sudo\x27")) :=
  ⟨by decide, by decide, by decide, by decide⟩

/-! ## Claim C2 -/

/-- C2 counterexample: "send hello to Bob" carries a send-M-to-C pattern and
no browser keyword, yet `try_handle` returns `None` (escalation) instead of
dispatching to desktop messaging — the messaging branch additionally
requires a WhatsApp mention. -/
theorem C2_counterexample :
    extractMessageAndContacts "send hello to Bob" = some ("hello", "Bob") ∧
      browserRequested (lowerOf "send hello to Bob") = false ∧
      tryHandle "send hello to Bob" = none :=
  ⟨by decide, by decide, by decide⟩

/-- C2 (amended): when the text also mentions WhatsApp, the send-M-to-C
pattern extracts (splitting at the *last* word "to"), no browser channel is
requested, and no earlier screen/vision or chrome-prefixed branch matches,
`try_handle` dispatches to the desktop messaging path with the literal
message and the contact list split from C. -/
theorem C2_whatsapp_send_desktop_dispatch
    (task m c : String)
    (hscreen : branchScreen task = none)
    (hchrome : branchChrome task = none)
    (hmc : extractMessageAndContacts task = some (m, c))
    (hwa : strContains (lowerOf task) "whatsapp" = true ∨
      strContains (lowerOf task) "whats app" = true)
    (hbr : browserRequested (lowerOf task) = false) :
    tryHandle task = some (.sendWhatsappDesktop (splitContacts c) m) := by
  have hne : (task == "") = false := by
    cases h : (task == "") with
    | false => rfl
    | true =>
      have ht : task = "" := by simpa using h
      rw [ht] at hmc
      have h0 : extractMessageAndContacts "" = none := by decide
      rw [h0] at hmc
      cases hmc
  have hcond : (strContains (lowerOf task) "whatsapp" ||
      strContains (lowerOf task) "whats app") = true := by
    rcases hwa with h | h <;> simp [h]
  have hmsg : branchMessaging task =
      some (some (.sendWhatsappDesktop (splitContacts c) m)) := by
    rw [branchMessaging]
    simp only [hmc, hcond, hbr, if_true, Bool.false_eq_true, if_false]
  rw [tryHandle]
  simp only [hne, Bool.false_eq_true, if_false, hscreen, hchrome, hmsg, routeOr,
    Option.getD]

/-- C2 witness: a message that itself contains the word "to" is still split
at the *last* "to", and the router dispatches desktop messaging with the
message exactly as typed. -/
theorem C2_whatsapp_send_desktop_dispatch_witness :
    branchScreen "whatsapp send i will come to office to Bob" = none ∧
      branchChrome "whatsapp send i will come to office to Bob" = none ∧
      extractMessageAndContacts "whatsapp send i will come to office to Bob" =
        some ("i will come to office", "Bob") ∧
      browserRequested (lowerOf "whatsapp send i will come to office to Bob") = false ∧
      tryHandle "whatsapp send i will come to office to Bob" =
        some (.sendWhatsappDesktop ["Bob"] "i will come to office") := by
  refine ⟨by decide, by decide, by decide, by decide, ?_⟩
  have h := C2_whatsapp_send_desktop_dispatch
    "whatsapp send i will come to office to Bob" "i will come to office" "Bob"
    (by decide) (by decide) (by decide) (Or.inl (by decide)) (by decide)
  have hsp : splitContacts "Bob" = ["Bob"] := by decide
  rw [← hsp]
  exact h

/-! ## Helper lemmas for the goal state machine -/

/-- `find?` over `range n` for "not in `range k`" finds exactly `k` (when
`k < n`). -/
theorem find?_range_not_contains (n k : Nat) :
    (List.range n).find? (fun i => !((List.range k).contains i)) =
      if k < n then some k else none := by
  induction n with
  | zero => simp
  | succ n ih =>
    rw [List.range_succ, List.find?_append, ih]
    have hc : ((List.range k).contains n) = decide (n < k) := by
      simp [List.elem_eq_mem, List.mem_range, List.contains]
    by_cases h : k < n
    · have h1 : k < n + 1 := Nat.lt_succ_of_lt h
      simp [h, h1]
    · by_cases h2 : k = n
      · subst h2
        have h1 : k < k + 1 := Nat.lt_succ_self k
        simp [h, hc, h1, List.find?]
      · have hnk : n < k := by omega
        have h1 : ¬(k < n + 1) := by omega
        simp [h, hc, hnk, h1, List.find?]

/-- Advancing a goal whose completed set is `range k` (with `k < n` steps
remaining) completes step `k`; the status flips exactly when `k + 1 = n`. -/
theorem advance_of_range (g : Goal) (k n : Nat) (hlen : g.steps.length = n)
    (hcs : g.completedSteps = List.range k) (hk : k < n) :
    g.advance.1 =
      { g with
          completedSteps := List.range (k + 1),
          status := if k + 1 = n then "completed" else g.status } := by
  have hidx : g.nextStepIndex = some k := by
    rw [Goal.nextStepIndex, hlen, hcs, find?_range_not_contains, if_pos hk]
  have hcs1 : g.completedSteps ++ [k] = List.range (k + 1) := by
    rw [hcs, List.range_succ]
  simp only [Goal.advance, hidx]
  have hidx1 : (Goal.nextStepIndex
      { g with completedSteps := g.completedSteps ++ [k] }) =
      (if k + 1 < n then some (k + 1) else none) := by
    rw [Goal.nextStepIndex]
    show (List.range g.steps.length).find? _ = _
    rw [hlen]
    have : ({ g with completedSteps := g.completedSteps ++ [k] } : Goal).completedSteps =
        List.range (k + 1) := hcs1
    rw [show (fun i => !(({ g with completedSteps := g.completedSteps ++ [k] } : Goal).completedSteps.contains i)) =
        (fun i => !((List.range (k + 1)).contains i)) from by rw [this]]
    exact find?_range_not_contains n (k + 1)
  by_cases hk1 : k + 1 < n
  · have hstep : ({ g with completedSteps := g.completedSteps ++ [k] } : Goal).nextStep.isNone = false := by
      rw [Goal.nextStep, hidx1, if_pos hk1]
      have hlt : k + 1 < g.steps.length := by omega
      simp [List.getElem?_eq_getElem hlt]
    simp only [hstep, Bool.false_eq_true, if_false]
    have : ¬(k + 1 = n) := by omega
    simp [this, hcs1]
  · have hn1 : k + 1 = n := by omega
    have hstep : ({ g with completedSteps := g.completedSteps ++ [k] } : Goal).nextStep.isNone = true := by
      rw [Goal.nextStep, hidx1, if_neg hk1]
      rfl
    simp only [hstep, if_true]
    simp [hn1, hcs1]

/-- Advancing a goal whose steps are all completed reports full completion
and does not change the completed set. -/
theorem advance_of_complete (g : Goal) (n : Nat) (hlen : g.steps.length = n)
    (hcs : g.completedSteps = List.range n) :
    g.advance = ({ g with status := "completed" },
      "🎉 Goal \x27" ++ g.description ++ "\x27 is fully complete!") := by
  have hidx : g.nextStepIndex = none := by
    rw [Goal.nextStepIndex, hlen, hcs, find?_range_not_contains,
      if_neg (lt_irrefl n)]
  simp only [Goal.advance, hidx]

/-- The state after `k ≤ n` advances of a fresh goal with `n` steps:
completed set `range k`, status `completed` exactly when `k = n > 0`. -/
theorem advanceIter_fresh (id desc : String) (steps : List String)
    (created : Int) (n : Nat) (hn : steps.length = n) :
    ∀ k, k ≤ n →
      advanceIter (Goal.create id desc steps created) k =
        { id := id, description := desc, steps := steps,
          completedSteps := List.range k,
          status := if k = n ∧ 0 < n then "completed" else "active",
          createdAt := created } := by
  intro k
  induction k with
  | zero =>
    intro _
    have h0 : ¬(0 = n ∧ 0 < n) := by omega
    simp [advanceIter, Goal.create, h0]
  | succ k ih =>
    intro hk1
    have hkn : k < n := hk1
    have hik := ih (Nat.le_of_lt hkn)
    have hadv : advanceIter (Goal.create id desc steps created) (k + 1) =
        (advanceIter (Goal.create id desc steps created) k).advance.1 := rfl
    rw [hadv, hik]
    rw [advance_of_range _ k n (by simpa using hn) (by simp) hkn]
    by_cases he : k + 1 = n
    · subst he
      simp
    · have h2 : ¬(k + 1 = n ∧ 0 < n) := by omega
      have h3 : ¬(k = n ∧ 0 < n) := by omega
      simp [he, h2, h3]

/-! ## Claim C3 -/

/-- C3: whenever the final answer claims success and some step of the action
trace carries an error or a failure marker in its observations,
`adjust_final_answer` replaces the answer with the generic
could-not-verify / error-occurred message, for every task and session state. -/
theorem C3_errors_override_claimed_success
    (finalAnswer task : String) (steps : List Step) (sc : SC)
    (hs : claimsSuccess finalAnswer = true)
    (he : hasError steps = true) :
    adjustFinalAnswer finalAnswer steps task sc = errorOccurredMsg := by
  simp [adjustFinalAnswer, hs, he]

/-- C3 witness: a concrete claimed success over a trace with a Timeout
observation is rewritten to the error message. -/
theorem C3_errors_override_claimed_success_witness :
    claimsSuccess "Done! Sent the message." = true ∧
      hasError [Step.action (some "send_whatsapp_message(contact, msg)") none
        (some "❌ Timeout while sending")] = true ∧
      adjustFinalAnswer "Done! Sent the message."
        [Step.action (some "send_whatsapp_message(contact, msg)") none
          (some "❌ Timeout while sending")] "send hi to Bob" SC.init =
        errorOccurredMsg :=
  ⟨by decide, by decide,
    C3_errors_override_claimed_success _ _ _ _ (by decide) (by decide)⟩

/-! ## Claim C4 -/

/-- C4: on a trace with no errors and no verification calls, a task containing
"post a comment" forces `adjust_final_answer` to downgrade any claimed
success to the strict cautionary message, whatever the session state. -/
theorem C4_strict_task_unverified_downgraded
    (finalAnswer task : String) (steps : List Step) (sc : SC)
    (hs : claimsSuccess finalAnswer = true)
    (he : hasError steps = false)
    (hv : hasVerification steps = false)
    (ht : strContains task "post a comment" = true) :
    adjustFinalAnswer finalAnswer steps task sc = strictDowngradeMsg := by
  have hlow : strContains (strLower task) "post a comment" = true := by
    have := strContains_lower ht
    have heq : strLower "post a comment" = "post a comment" := by decide
    rwa [heq] at this
  have hc : strContains (strLower task) "comment" = true :=
    strContains_trans hlow (by decide)
  have hstrict : requiresStrict task sc = true := by
    rw [requiresStrict]
    simp [REQUIRES_STRICT_VERIFY, hc]
  have hsv : hasStrictVerification steps = false := by
    cases hsv : hasStrictVerification steps
    · rfl
    · have := hasStrict_imp_hasVerification steps hsv
      rw [hv] at this
      exact absurd this (by simp)
  simp [adjustFinalAnswer, hs, he, hstrict, hsv]

/-- C4 witness: "Successfully posted!" on the task "post a comment on the PR"
with an empty trace is downgraded. -/
theorem C4_strict_task_unverified_downgraded_witness :
    claimsSuccess "Successfully posted!" = true ∧
      hasError ([] : List Step) = false ∧
      hasVerification ([] : List Step) = false ∧
      adjustFinalAnswer "Successfully posted!" [] "post a comment on the PR"
        SC.init = strictDowngradeMsg :=
  ⟨by decide, by decide, by decide,
    C4_strict_task_unverified_downgraded _ _ _ _ (by decide) (by decide)
      (by decide) (by decide)⟩

/-! ## Claim C5 -/

/-- C5 counterexample: the claim quantifies over every error-free,
verification-free trace and fixes only the task text, but the verifier also
consults the session singleton: with a tracked site (reachable via
`update_browser`), the same calculator task is downgraded, not returned
unchanged. -/
theorem C5_counterexample :
    hasError ([] : List Step) = false ∧
      hasVerification ([] : List Step) = false ∧
      Reachable (SC.init.updateBrowser (some "https://github.com") none) ∧
      adjustFinalAnswer "Successfully opened!" [] "open the calculator app"
          (SC.init.updateBrowser (some "https://github.com") none) ≠
        "Successfully opened!" :=
  ⟨by decide, by decide, .updateBrowser _ _ .init, by decide⟩

/-- C5 (amended): when additionally the session tracks no site and no URL, a
claimed-success answer over an error-free, verification-free trace is
returned unchanged on the task "open the calculator app". -/
theorem C5_calculator_task_unchanged
    (finalAnswer : String) (steps : List Step) (sc : SC)
    (hsite : sc.lastSite = none) (hurl : sc.lastUrl = none)
    (he : hasError steps = false)
    (hv : hasVerification steps = false) :
    adjustFinalAnswer finalAnswer steps "open the calculator app" sc =
      finalAnswer := by
  cases hcs : claimsSuccess finalAnswer with
  | false => simp [adjustFinalAnswer, hcs]
  | true =>
    have hA : (REQUIRES_STRICT_VERIFY.any fun k =>
        strContains (strLower "open the calculator app") k) = false := by decide
    have hB : (UI_MARKERS.any fun k =>
        strContains (strLower "open the calculator app") k) = false := by decide
    have h1 : requiresStrict "open the calculator app" sc = false := by
      rw [requiresStrict, hA, hB]
      simp
    have hC : (BROWSER_MARKERS.any fun m =>
        strContains (strLower "open the calculator app") m) = false := by decide
    have h2 : isBrowserTask "open the calculator app" sc = false := by
      rw [isBrowserTask, hC, hsite, hurl]
      simp [optTruthy]
    simp [adjustFinalAnswer, hcs, he, h1, h2]

/-- C5 witness: with the fresh session, the claimed success stands. -/
theorem C5_calculator_task_unchanged_witness :
    hasError ([] : List Step) = false ∧
      hasVerification ([] : List Step) = false ∧
      adjustFinalAnswer "Successfully opened!" [] "open the calculator app"
        SC.init = "Successfully opened!" :=
  ⟨by decide, by decide,
    C5_calculator_task_unchanged _ _ _ rfl rfl (by decide) (by decide)⟩

/-- `consume_interrupt` leaves `last_url` and `last_site` unchanged. -/
theorem consumeInterrupt_preserves (s : SC) :
    s.consumeInterrupt.1.lastUrl = s.lastUrl ∧
      s.consumeInterrupt.1.lastSite = s.lastSite := by
  by_cases h : s.interruptRequested <;> simp [SC.consumeInterrupt, h]

/-- `update_tokens` leaves `last_url` and `last_site` unchanged. -/
theorem updateTokens_preserves (s : SC) (i o : Option Nat) :
    (s.updateTokens i o).lastUrl = s.lastUrl ∧
      (s.updateTokens i o).lastSite = s.lastSite := by
  rcases i with _ | n <;> rcases o with _ | m <;>
    simp only [SC.updateTokens] <;> constructor <;> (try split) <;> (try split) <;> trivial

/-- The title half of `update_browser` leaves `last_url`/`last_site` at the
values produced by the URL half. -/
theorem updateBrowser_title_preserves (s : SC) (url title : Option String) :
    (s.updateBrowser url title).lastUrl = (s.browserUrlStep url).lastUrl ∧
      (s.updateBrowser url title).lastSite = (s.browserUrlStep url).lastSite := by
  rcases title with _ | t <;>
    simp only [SC.updateBrowser] <;> constructor <;> (try split) <;> trivial

/-! ## Claim C10 -/

/-- C10 counterexample: `update_browser` with a bare domain (no authority
component) updates `last_url` but leaves the previous `last_site` in place,
so in the resulting reachable state `last_site` is not the authority of
`last_url` (which is empty). -/
theorem C10_counterexample :
    Reachable ((SC.init.updateBrowser (some "https://github.com") none).updateBrowser
        (some "example.com") none) ∧
      ((SC.init.updateBrowser (some "https://github.com") none).updateBrowser
          (some "example.com") none).lastUrl = some "example.com" ∧
      ((SC.init.updateBrowser (some "https://github.com") none).updateBrowser
          (some "example.com") none).lastSite = some "github.com" ∧
      netlocOf "example.com" = "" :=
  ⟨.updateBrowser _ _ (.updateBrowser _ _ .init), by decide, by decide, by decide⟩

/-- C10 (amended): in every reachable session state, whenever `last_url` is
set to a URL whose authority component is non-empty, `last_site` equals that
authority; `last_site` is never set except from `last_url`'s authority. -/
theorem C10_lastSite_tracks_authority
    (s : SC) (hr : Reachable s) (u : String)
    (hu : s.lastUrl = some u) (hnet : netlocOf u ≠ "") :
    s.lastSite = some (netlocOf u) := by
  induction hr generalizing u with
  | init => simp [SC.init] at hu
  | updateApp a _ ih => exact ih u hu hnet
  | updateTask t _ ih => exact ih u hu hnet
  | updateMode m _ ih => exact ih u hu hnet
  | requestInterrupt _ ih => exact ih u hu hnet
  | consumeInterrupt _ ih =>
    rename_i s' _
    rw [(consumeInterrupt_preserves s').1] at hu
    rw [(consumeInterrupt_preserves s').2]
    exact ih u hu hnet
  | updateTokens i o _ ih =>
    rename_i s' _
    rw [(updateTokens_preserves s' i o).1] at hu
    rw [(updateTokens_preserves s' i o).2]
    exact ih u hu hnet
  | updateBrowser url title _ ih =>
    rename_i s' _
    rw [(updateBrowser_title_preserves s' url title).1] at hu
    rw [(updateBrowser_title_preserves s' url title).2]
    rcases url with _ | uu
    · exact ih u hu hnet
    · simp only [SC.browserUrlStep] at hu ⊢
      by_cases hempty : uu == ""
      · simp only [hempty, if_true] at hu ⊢
        exact ih u hu hnet
      · simp only [hempty, Bool.false_eq_true, if_false] at hu ⊢
        by_cases hnl : netlocOf uu == ""
        · simp only [hnl, if_true] at hu ⊢
          simp only [Option.some.injEq] at hu
          subst hu
          exact absurd (by simpa using hnl) hnet
        · simp only [hnl, Bool.false_eq_true, if_false] at hu ⊢
          simp only [Option.some.injEq] at hu
          subst hu
          rfl

/-! ## Helper lemmas for the fact store -/

theorem foldl_pickBest_isSome (l : List Fact) (b : Fact) :
    (l.foldl pickBest (some b)).isSome = true := by
  induction l generalizing b with
  | nil => rfl
  | cons f t ih =>
    show (t.foldl pickBest (pickBest (some b) f)).isSome = true
    simp only [pickBest]
    split
    · exact ih f
    · exact ih b

/-- An empty active set means `SELECT ... LIMIT 1` finds nothing. -/
theorem selectActive_of_empty (st : MemoryStore) (s p : String)
    (h : activeFacts st s p = []) : selectActive st s p = none := by
  rw [selectActive, h]
  rfl

/-- A singleton active set is selected. -/
theorem selectActive_of_singleton (st : MemoryStore) (s p : String) (x : Fact)
    (h : activeFacts st s p = [x]) : selectActive st s p = some x := by
  rw [selectActive, h]
  rfl

/-- `upsert_fact` on a pair with no active fact inserts a fresh row. -/
theorem upsert_insert_fresh (st : MemoryStore) (now : Int)
    (subject predicate obj : String) (conf : ℚ) (ttl : Option Int)
    (gs : (strTrim subject == "") = false)
    (gp : (strTrim predicate == "") = false)
    (go : (strTrim obj == "") = false)
    (hsel : selectActive st (strTrim subject) (strTrim predicate) = none) :
    upsertFact st now subject predicate obj conf none ttl none =
      ({ st with
          facts := st.facts ++
            [{ id := st.nextId, subject := strTrim subject,
               predicate := strTrim predicate, obj := strTrim obj,
               confidence := conf, sourceEventId := none, createdAt := now,
               updatedAt := none, expiresAt := ttl.map (fun d => now + d * 86400),
               locked := false, isDeleted := false, deletedAt := none,
               metadata := ⟨[], []⟩ }],
          nextId := st.nextId + 1 },
       some st.nextId) := by
  simp only [upsertFact, gs, gp, go, Bool.or_self, Bool.or_false, Bool.false_or,
    Bool.false_eq_true, if_false, hsel, Option.getD_none]

/-- `upsert_fact` superseding an active row with a *different* object value
updates the row in place and appends the prior value to the history. -/
theorem upsert_update_changed (st : MemoryStore) (now : Int)
    (subject predicate obj : String) (conf : ℚ) (ttl : Option Int) (row : Fact)
    (gs : (strTrim subject == "") = false)
    (gp : (strTrim predicate == "") = false)
    (go : (strTrim obj == "") = false)
    (hsel : selectActive st (strTrim subject) (strTrim predicate) = some row)
    (hdiff : (row.obj == strTrim obj) = false) :
    upsertFact st now subject predicate obj conf none ttl none =
      ({ st with facts := st.facts.map (fun f =>
          if f.id == row.id then
            { f with obj := strTrim obj, confidence := conf,
                     sourceEventId := none, updatedAt := some now,
                     expiresAt := ttl.map (fun d => now + d * 86400),
                     metadata :=
                       ⟨[], row.metadata.history ++ [⟨row.obj, row.confidence, now⟩]⟩ }
          else f) },
       some row.id) := by
  have hne : (row.metadata.history ++ [(⟨row.obj, row.confidence, now⟩ : HistEntry)]).isEmpty = false := by
    cases row.metadata.history <;> rfl
  simp only [upsertFact, gs, gp, go, Bool.or_self, Bool.or_false, Bool.false_or,
    Bool.false_eq_true, if_false, hsel, hdiff, Option.getD_none, hne]

/-- `upsert_fact` with an *unchanged* object value appends nothing to a
non-empty history. -/
theorem upsert_update_unchanged (st : MemoryStore) (now : Int)
    (subject predicate obj : String) (conf : ℚ) (ttl : Option Int) (row : Fact)
    (gs : (strTrim subject == "") = false)
    (gp : (strTrim predicate == "") = false)
    (go : (strTrim obj == "") = false)
    (hsel : selectActive st (strTrim subject) (strTrim predicate) = some row)
    (hsame : (row.obj == strTrim obj) = true)
    (hh : row.metadata.history.isEmpty = false) :
    upsertFact st now subject predicate obj conf none ttl none =
      ({ st with facts := st.facts.map (fun f =>
          if f.id == row.id then
            { f with obj := strTrim obj, confidence := conf,
                     sourceEventId := none, updatedAt := some now,
                     expiresAt := ttl.map (fun d => now + d * 86400),
                     metadata := ⟨[], row.metadata.history⟩ }
          else f) },
       some row.id) := by
  simp only [upsertFact, gs, gp, go, Bool.or_self, Bool.or_false, Bool.false_or,
    Bool.false_eq_true, if_false, if_true, hsel, hsame, Option.getD_none, hh]

/-! ## Claim C6 -/

/-- C6: neither expiry cleanup nor age-based purge ever marks a locked fact
deleted: the per-row updates fix locked rows, and a locked fact survives both
operations unchanged, whatever its `expires_at` or age. -/
theorem C6_locked_facts_never_purged (st : MemoryStore) (now days : Int)
    (f : Fact) (hf : f ∈ st.facts) (hl : f.locked = true) :
    expireMark now f = f ∧
      purgeMark (now - days * 86400) now f = f ∧
      f ∈ (cleanupExpiredFacts st now).1.facts ∧
      f ∈ (purgeFactsOlderThan st days now).1.facts := by
  have he : expireMark now f = f := by
    simp [expireMark, hl]
  have hp : purgeMark (now - days * 86400) now f = f := by
    simp [purgeMark, hl]
  refine ⟨he, hp, ?_, ?_⟩
  · show f ∈ st.facts.map (expireMark now)
    exact List.mem_map.mpr ⟨f, hf, he⟩
  · rw [purgeFactsOlderThan]
    by_cases hd : days ≤ 0
    · rw [if_pos hd]
      exact hf
    · rw [if_neg hd]
      show f ∈ st.facts.map (purgeMark (now - days * 86400) now)
      exact List.mem_map.mpr ⟨f, hf, hp⟩

/-- C6 witness: a locked fact whose expiry has long passed survives both the
expiry cleanup and a purge of everything older than one day. -/
theorem C6_locked_facts_never_purged_witness :
    lockedFactExample ∈ lockedStoreExample.facts ∧
      lockedFactExample.locked = true ∧
      lockedFactExample ∈ (cleanupExpiredFacts lockedStoreExample 100).1.facts ∧
      lockedFactExample ∈ (purgeFactsOlderThan lockedStoreExample 1 100).1.facts :=
  ⟨by simp [lockedStoreExample], rfl,
    (C6_locked_facts_never_purged lockedStoreExample 100 1 lockedFactExample
      (by simp [lockedStoreExample]) rfl).2.2.1,
    (C6_locked_facts_never_purged lockedStoreExample 100 1 lockedFactExample
      (by simp [lockedStoreExample]) rfl).2.2.2⟩

/-! ## Claim C7 -/

/-- C7: starting from a store holding no active fact for the pair, upserting
`v1` and then a different `v2` leaves exactly one active row for the pair,
whose object is `v2` and whose metadata history holds exactly one entry
recording `v1`; a further upsert of the unchanged `v2` appends no history
entry (and still leaves exactly one active row). -/
theorem C7_upsert_versioning
    (st0 : MemoryStore) (now1 now2 now3 : Int)
    (subject predicate v1 v2 : String)
    (conf1 conf2 conf3 : ℚ) (ttl1 ttl2 ttl3 : Option Int)
    (st1 st2 st3 : MemoryStore)
    (hs : strTrim subject ≠ "") (hp : strTrim predicate ≠ "")
    (h1 : strTrim v1 ≠ "") (h2 : strTrim v2 ≠ "")
    (hne : strTrim v1 ≠ strTrim v2)
    (hact0 : activeFacts st0 (strTrim subject) (strTrim predicate) = [])
    (hid : ∀ f ∈ st0.facts, f.id < st0.nextId)
    (e1 : st1 = (upsertFact st0 now1 subject predicate v1 conf1 none ttl1 none).1)
    (e2 : st2 = (upsertFact st1 now2 subject predicate v2 conf2 none ttl2 none).1)
    (e3 : st3 = (upsertFact st2 now3 subject predicate v2 conf3 none ttl3 none).1) :
    (activeFacts st2 (strTrim subject) (strTrim predicate)).length = 1 ∧
      (activeFacts st2 (strTrim subject) (strTrim predicate)).head?.map Fact.obj =
        some (strTrim v2) ∧
      (activeFacts st2 (strTrim subject) (strTrim predicate)).head?.map
          (fun f => f.metadata.history) =
        some [⟨strTrim v1, conf1, now2⟩] ∧
      (activeFacts st3 (strTrim subject) (strTrim predicate)).length = 1 ∧
      (activeFacts st3 (strTrim subject) (strTrim predicate)).head?.map
          (fun f => f.metadata.history) =
        some [⟨strTrim v1, conf1, now2⟩] := by
  have g1 : (strTrim subject == "") = false := beq_eq_false_iff_ne.mpr hs
  have g2 : (strTrim predicate == "") = false := beq_eq_false_iff_ne.mpr hp
  have g3 : (strTrim v1 == "") = false := beq_eq_false_iff_ne.mpr h1
  have g4 : (strTrim v2 == "") = false := beq_eq_false_iff_ne.mpr h2
  have gne : (strTrim v1 == strTrim v2) = false := beq_eq_false_iff_ne.mpr hne
  have hsel0 : selectActive st0 (strTrim subject) (strTrim predicate) = none :=
    selectActive_of_empty _ _ _ hact0
  -- step 1: insert the fresh row R1
  have hstep1 := upsert_insert_fresh st0 now1 subject predicate v1 conf1 ttl1
    g1 g2 g3 hsel0
  set R1 : Fact :=
    { id := st0.nextId, subject := strTrim subject,
      predicate := strTrim predicate, obj := strTrim v1,
      confidence := conf1, sourceEventId := none, createdAt := now1,
      updatedAt := none, expiresAt := ttl1.map (fun d => now1 + d * 86400),
      locked := false, isDeleted := false, deletedAt := none,
      metadata := ⟨[], []⟩ } with hR1
  have e1' : st1 = { st0 with facts := st0.facts ++ [R1], nextId := st0.nextId + 1 } := by
    rw [e1, hstep1]
  have hf0 : st0.facts.filter (factMatches (strTrim subject) (strTrim predicate)) = [] :=
    hact0
  have hact1 : activeFacts st1 (strTrim subject) (strTrim predicate) = [R1] := by
    rw [e1']
    show (st0.facts ++ [R1]).filter (factMatches (strTrim subject) (strTrim predicate)) = [R1]
    rw [List.filter_append, hf0]
    simp [hR1, factMatches]
  have hsel1 : selectActive st1 (strTrim subject) (strTrim predicate) = some R1 :=
    selectActive_of_singleton _ _ _ _ hact1
  -- step 2: supersede R1 with the changed value v2, recording v1 in history
  have hdiff1 : (R1.obj == strTrim v2) = false := gne
  have hstep2 := upsert_update_changed st1 now2 subject predicate v2 conf2 ttl2 R1
    g1 g2 g4 hsel1 hdiff1
  set R2 : Fact :=
    { id := st0.nextId, subject := strTrim subject,
      predicate := strTrim predicate, obj := strTrim v2,
      confidence := conf2, sourceEventId := none, createdAt := now1,
      updatedAt := some now2, expiresAt := ttl2.map (fun d => now2 + d * 86400),
      locked := false, isDeleted := false, deletedAt := none,
      metadata := ⟨[], [⟨strTrim v1, conf1, now2⟩]⟩ } with hR2
  have hmap0 : ∀ g : Fact → Fact, (∀ f ∈ st0.facts, g f = f) →
      st0.facts.map g = st0.facts := by
    intro g hg
    rw [List.map_congr_left hg]
    simp
  have hupd1 : ∀ f ∈ st0.facts, (fun f =>
      if f.id == R1.id then
        { f with obj := strTrim v2, confidence := conf2,
                 sourceEventId := none, updatedAt := some now2,
                 expiresAt := ttl2.map (fun d => now2 + d * 86400),
                 metadata :=
                   ⟨[], R1.metadata.history ++ [⟨R1.obj, R1.confidence, now2⟩]⟩ }
      else f) f = f := by
    intro f hf
    have : (f.id == R1.id) = false :=
      beq_eq_false_iff_ne.mpr (Nat.ne_of_lt (hid f hf))
    simp only [this, Bool.false_eq_true, if_false]
  have e2' : st2 = { st0 with facts := st0.facts ++ [R2], nextId := st0.nextId + 1 } := by
    rw [e2, hstep2, e1']
    show ({ st0 with
        facts := (st0.facts ++ [R1]).map _, nextId := st0.nextId + 1 } : MemoryStore) = _
    rw [List.map_append, hmap0 _ hupd1]
    simp [hR1, hR2]
  have hact2 : activeFacts st2 (strTrim subject) (strTrim predicate) = [R2] := by
    rw [e2']
    show (st0.facts ++ [R2]).filter (factMatches (strTrim subject) (strTrim predicate)) = [R2]
    rw [List.filter_append, hf0]
    simp [hR2, factMatches]
  have hsel2 : selectActive st2 (strTrim subject) (strTrim predicate) = some R2 :=
    selectActive_of_singleton _ _ _ _ hact2
  -- step 3: an idempotent re-save of v2 appends nothing
  have hsame : (R2.obj == strTrim v2) = true := beq_self_eq_true _
  have hh2 : R2.metadata.history.isEmpty = false := rfl
  have hstep3 := upsert_update_unchanged st2 now3 subject predicate v2 conf3 ttl3 R2
    g1 g2 g4 hsel2 hsame hh2
  set R3 : Fact :=
    { id := st0.nextId, subject := strTrim subject,
      predicate := strTrim predicate, obj := strTrim v2,
      confidence := conf3, sourceEventId := none, createdAt := now1,
      updatedAt := some now3, expiresAt := ttl3.map (fun d => now3 + d * 86400),
      locked := false, isDeleted := false, deletedAt := none,
      metadata := ⟨[], [⟨strTrim v1, conf1, now2⟩]⟩ } with hR3
  have hupd2 : ∀ f ∈ st0.facts, (fun f =>
      if f.id == R2.id then
        { f with obj := strTrim v2, confidence := conf3,
                 sourceEventId := none, updatedAt := some now3,
                 expiresAt := ttl3.map (fun d => now3 + d * 86400),
                 metadata := ⟨[], R2.metadata.history⟩ }
      else f) f = f := by
    intro f hf
    have : (f.id == R2.id) = false :=
      beq_eq_false_iff_ne.mpr (Nat.ne_of_lt (hid f hf))
    simp only [this, Bool.false_eq_true, if_false]
  have e3' : st3 = { st0 with facts := st0.facts ++ [R3], nextId := st0.nextId + 1 } := by
    rw [e3, hstep3, e2']
    show ({ st0 with
        facts := (st0.facts ++ [R2]).map _, nextId := st0.nextId + 1 } : MemoryStore) = _
    rw [List.map_append, hmap0 _ hupd2]
    simp [hR2, hR3]
  have hact3 : activeFacts st3 (strTrim subject) (strTrim predicate) = [R3] := by
    rw [e3']
    show (st0.facts ++ [R3]).filter (factMatches (strTrim subject) (strTrim predicate)) = [R3]
    rw [List.filter_append, hf0]
    simp [hR3, factMatches]
  refine ⟨?_, ?_, ?_, ?_, ?_⟩
  · rw [hact2]
    rfl
  · rw [hact2]
    simp [hR2]
  · rw [hact2]
    simp [hR2]
  · rw [hact3]
    rfl
  · rw [hact3]
    simp [hR3]

/-- C7 witness: two different objects then an idempotent re-save, on an empty
store with concrete strings and timestamps. -/
theorem C7_upsert_versioning_witness :
    strTrim "user" ≠ "" ∧ strTrim "Alice" ≠ "Bob" ∧
      activeFacts ({} : MemoryStore) "user" "name" = [] ∧
      (activeFacts (upsertFact (upsertFact ({} : MemoryStore) 10 "user" "name" "Alice"
            (7/10) none none none).1 20 "user" "name" "Bob" (7/10) none none none).1
          "user" "name").length = 1 ∧
      (activeFacts (upsertFact (upsertFact ({} : MemoryStore) 10 "user" "name" "Alice"
            (7/10) none none none).1 20 "user" "name" "Bob" (7/10) none none none).1
          "user" "name").head?.map Fact.obj = some "Bob" ∧
      (activeFacts (upsertFact (upsertFact ({} : MemoryStore) 10 "user" "name" "Alice"
            (7/10) none none none).1 20 "user" "name" "Bob" (7/10) none none none).1
          "user" "name").head?.map (fun f => f.metadata.history) =
        some [⟨"Alice", 7/10, 20⟩] := by
  have h := C7_upsert_versioning ({} : MemoryStore) 10 20 30 "user" "name"
    "Alice" "Bob" (7/10) (7/10) (7/10) none none none
    (upsertFact ({} : MemoryStore) 10 "user" "name" "Alice" (7/10) none none none).1
    (upsertFact (upsertFact ({} : MemoryStore) 10 "user" "name" "Alice"
      (7/10) none none none).1 20 "user" "name" "Bob" (7/10) none none none).1
    (upsertFact (upsertFact (upsertFact ({} : MemoryStore) 10 "user" "name" "Alice"
      (7/10) none none none).1 20 "user" "name" "Bob" (7/10) none none none).1
      30 "user" "name" "Bob" (7/10) none none none).1
    (by decide) (by decide) (by decide) (by decide) (by decide)
    (by decide) (by intro f hf; exact absurd hf (List.not_mem_nil f)) rfl rfl rfl
  exact ⟨by decide, by decide, by decide, h.1, h.2.1, h.2.2.1⟩

/-! ## Claim C8 -/

/-- C8: a goal freshly created with `n ≥ 1` steps stays `active` through the
first `n - 1` advances, becomes `completed` exactly on the `n`-th advance;
one further advance returns the fully-complete message and leaves
`completed_steps` untouched. -/
theorem C8_advance_completes_on_last_step
    (id desc : String) (steps : List String) (created : Int) (n : Nat)
    (hn : steps.length = n) (hpos : 1 ≤ n) :
    (∀ k, k < n →
        (advanceIter (Goal.create id desc steps created) k).status = "active") ∧
      (advanceIter (Goal.create id desc steps created) n).status = "completed" ∧
      (advanceIter (Goal.create id desc steps created) n).completedSteps =
        List.range n ∧
      (advanceIter (Goal.create id desc steps created) n).advance.1.completedSteps =
        List.range n ∧
      (advanceIter (Goal.create id desc steps created) n).advance.2 =
        "🎉 Goal \x27" ++ desc ++ "\x27 is fully complete!" := by
  have hfr := advanceIter_fresh id desc steps created n hn
  have hstate := hfr n (Nat.le_refl n)
  have hlen2 : (advanceIter (Goal.create id desc steps created) n).steps.length = n := by
    rw [hstate]
    exact hn
  have hcs2 : (advanceIter (Goal.create id desc steps created) n).completedSteps =
      List.range n := by
    rw [hstate]
  have hadv := advance_of_complete _ n hlen2 hcs2
  refine ⟨?_, ?_, hcs2, ?_, ?_⟩
  · intro k hk
    rw [hfr k (Nat.le_of_lt hk)]
    have hne : ¬(k = n ∧ 0 < n) := by omega
    simp [hne]
  · rw [hstate]
    have hcond : (n = n ∧ 0 < n) := ⟨rfl, hpos⟩
    simp [hcond]
  · rw [hadv]
    exact hcs2
  · rw [hadv]
    rw [hstate]

/-- C8 witness: a two-step goal is active after one advance, completed after
two, and a third advance reports full completion without touching the
completed set. -/
theorem C8_advance_completes_on_last_step_witness :
    (["draft", "review"] : List String).length = 2 ∧
      (advanceIter (Goal.create "g1" "ship the patch" ["draft", "review"] 0) 1).status =
        "active" ∧
      (advanceIter (Goal.create "g1" "ship the patch" ["draft", "review"] 0) 2).status =
        "completed" ∧
      (advanceIter (Goal.create "g1" "ship the patch" ["draft", "review"] 0) 2).advance.1.completedSteps =
        List.range 2 ∧
      (advanceIter (Goal.create "g1" "ship the patch" ["draft", "review"] 0) 2).advance.2 =
        "🎉 Goal \x27ship the patch\x27 is fully complete!" := by
  have h := C8_advance_completes_on_last_step "g1" "ship the patch"
    ["draft", "review"] 0 2 (by decide) (by decide)
  exact ⟨by decide, h.1 1 (by decide), h.2.1, h.2.2.2.1, h.2.2.2.2⟩

/-! ## Claim C9 -/

/-- C9: if any sensitive-denylist keyword occurs anywhere in the lowercased
text, `extract_facts_from_text` extracts nothing at all. -/
theorem C9_sensitive_text_yields_no_facts
    (text keyword : String)
    (hk : keyword ∈ SENSITIVE_KEYWORDS)
    (hc : strContains (strLower text) keyword = true) :
    extractFactsFromText text = [] := by
  cases h0 : (text == "") with
  | true => simp [extractFactsFromText, h0]
  | false =>
    have hany : (SENSITIVE_KEYWORDS.any fun k => strContains (strLower text) k) = true :=
      List.any_eq_true.mpr ⟨keyword, hk, hc⟩
    simp [extractFactsFromText, h0, hany]

/-- C9 witness: a text mentioning a password yields no facts although its
"call me X" pattern would otherwise match. -/
theorem C9_sensitive_text_yields_no_facts_witness :
    "password" ∈ SENSITIVE_KEYWORDS ∧
      strContains (strLower "My password is hunter2, call me Bob") "password" = true ∧
      extractFactsFromText "My password is hunter2, call me Bob" = [] ∧
      extractFactsFromText "Hello, call me Bob" =
        [⟨"user", "preferred_name", "Bob"⟩] :=
  ⟨by decide, by decide,
    C9_sensitive_text_yields_no_facts "My password is hunter2, call me Bob"
      "password" (by decide) (by decide),
    by decide⟩

/-- C10 witness: after navigating to a URL with an authority, the invariant
instance holds concretely. -/
theorem C10_lastSite_tracks_authority_witness :
    (SC.init.updateBrowser (some "https://github.com/x") none).lastUrl =
        some "https://github.com/x" ∧
      netlocOf "https://github.com/x" ≠ "" ∧
      (SC.init.updateBrowser (some "https://github.com/x") none).lastSite =
        some (netlocOf "https://github.com/x") :=
  ⟨by decide, by decide,
    C10_lastSite_tracks_authority _ (.updateBrowser _ _ .init) _ (by decide)
      (by decide)⟩

end Arka
